import Mathlib

set_option maxRecDepth 2000

/-!
Verification of the popcorn-cli interactive submission flow (src/main.py).

The program is embedded shallowly: each Python function becomes a Lean
definition over an explicit environment (HTTP responses, file-system state,
user keyboard input), producing a trace of observable events (console prints,
HTTP requests, prompt interactions) and a process exit code.  Python library
semantics used by the program (str/int conversion, list indexing, dict
subscription, json.dumps/json.loads, universal-newline text reads) are
modelled as executable Lean functions.
-/

namespace Popcorn

/-- JSON values, as produced by Python response.json().  Numbers are
modelled as (arbitrary-precision) integers; object keys are strings and
kept in insertion order, as CPython dicts do. -/
inductive Json where
  | null : Json
  | bool (b : Bool) : Json
  | num (n : Int) : Json
  | str (s : String) : Json
  | arr (xs : List Json) : Json
  | obj (kvs : List (String × Json)) : Json

/-- Decimal digits of a natural number, most significant first
(model of CPython int-to-string for non-negative values). -/
def natDigits (n : Nat) : List Char :=
  if h : n < 10 then [Char.ofNat (48 + n)]
  else natDigits (n / 10) ++ [Char.ofNat (48 + n % 10)]
  decreasing_by exact Nat.div_lt_self (by omega) (by omega)

/-- Model of Python str(i) for an int i. -/
def pyIntStr (i : Int) : String :=
  if i < 0 then String.mk ([Char.ofNat 45] ++ natDigits (-i).toNat)
  else String.mk (natDigits i.toNat)

/-- Value of a list of decimal digit characters (the fold Python int() performs). -/
def digitsVal (cs : List Char) : Nat :=
  cs.foldl (fun n c => n * 10 + (c.toNat - 48)) 0

/-- Is c one of the ASCII digits 0-9? -/
def isDig (c : Char) : Bool :=
  48 ≤ c.toNat && c.toNat ≤ 57

/-- Is c ASCII whitespace (space, tab, carriage return, newline)? -/
def isWs (c : Char) : Bool :=
  c.toNat = 32 || c.toNat = 9 || c.toNat = 13 || c.toNat = 10

/-- Model of Python int(s) on an already-stripped character sequence:
optional sign followed by at least one decimal digit. -/
def pyInt (cs : List Char) : Option Int :=
  match cs with
  | [] => none
  | c :: rest =>
    if c = '-' then
      if rest ≠ [] ∧ rest.all isDig then some (-(digitsVal rest : Int)) else none
    else if c = '+' then
      if rest ≠ [] ∧ rest.all isDig then some (digitsVal rest : Int) else none
    else
      if (c :: rest).all isDig then some (digitsVal (c :: rest) : Int) else none

/-- Python str.strip(): drop whitespace from both ends. -/
def pyStrip (cs : List Char) : List Char :=
  ((cs.dropWhile isWs).reverse.dropWhile isWs).reverse

/-- Model of rich.prompt.IntPrompt.ask with a choices list: the raw input is
stripped, converted with int() (re-prompt on failure), then the stripped raw
string is checked against the choices (re-prompt when absent).  The first
accepted input is returned; none means the user never supplies a valid one. -/
def promptAsk (choices : List String) : List String → Option Int
  | [] => none
  | s :: rest =>
    let t := pyStrip s.data
    match pyInt t with
    | none => promptAsk choices rest
    | some v => if String.mk t ∈ choices then some v else promptAsk choices rest

/-- The choices list built at the leaderboard and GPU menus:
[str(i) for i in range(1, n + 1)]. -/
def rangeChoices (n : Nat) : List String :=
  (List.range n).map (fun (k : Nat) => pyIntStr ((k : Int) + 1))

/-- Model of Python list indexing xs[i] (negative indices count from the
end; out of range raises IndexError). -/
def pyIndex (xs : List α) (i : Int) : Except String α :=
  let j := if i < 0 then i + xs.length else i
  if h : 0 ≤ j ∧ j.toNat < xs.length then .ok (xs.get ⟨j.toNat, h.2⟩)
  else .error "list index out of range"

/-- Python type names, for error messages. -/
def pyTypeName : Json → String
  | .null => "NoneType"
  | .bool _ => "bool"
  | .num _ => "int"
  | .str _ => "str"
  | .arr _ => "list"
  | .obj _ => "dict"

mutual

/-- Model of Python repr() on JSON-shaped values (approximate for strings:
quoting without escape handling, which no claim exercises). -/
def pyRepr : Json → String
  | .null => "None"
  | .bool true => "True"
  | .bool false => "False"
  | .num n => pyIntStr n
  | .str s => "\x27" ++ s ++ "\x27"
  | .arr xs => "[" ++ pyReprList xs ++ "]"
  | .obj kvs => "\x7b" ++ pyReprObj kvs ++ "\x7d"

/-- Comma-separated repr of list elements. -/
def pyReprList : List Json → String
  | [] => ""
  | [x] => pyRepr x
  | x :: y :: xs => pyRepr x ++ ", " ++ pyReprList (y :: xs)

/-- Comma-separated repr of dict entries. -/
def pyReprObj : List (String × Json) → String
  | [] => ""
  | [kv] => "\x27" ++ kv.1 ++ "\x27: " ++ pyRepr kv.2
  | kv :: kv2 :: kvs => "\x27" ++ kv.1 ++ "\x27: " ++ pyRepr kv.2 ++ ", " ++ pyReprObj (kv2 :: kvs)

end

/-- Model of Python str() / f-string conversion on JSON-shaped values. -/
def pyStr (j : Json) : String :=
  match j with
  | .str s => s
  | _ => pyRepr j

/-- Model of iterating a Python value (for x in v): lists yield elements,
dicts yield their keys, strings yield one-character strings, anything else
raises TypeError. -/
def pyIter : Json → Except String (List Json)
  | .arr xs => .ok xs
  | .obj kvs => .ok (kvs.map (fun kv => .str kv.1))
  | .str s => .ok (s.data.map (fun c => .str (String.mk [c])))
  | j => .error ("\x27" ++ pyTypeName j ++ "\x27 object is not iterable")

/-- Model of Python subscription v[key] with a string key: dict lookup
(KeyError if absent, whose str() is the quoted key), TypeError otherwise. -/
def pyGetItem (j : Json) (key : String) : Except String Json :=
  match j with
  | .obj kvs =>
    match kvs.find? (fun kv => kv.1 = key) with
    | some kv => .ok kv.2
    | none => .error ("\x27" ++ key ++ "\x27")
  | .str _ => .error "string indices must be integers"
  | .arr _ => .error "list indices must be integers or slices, not str"
  | j => .error ("\x27" ++ pyTypeName j ++ "\x27 object is not subscriptable")

/-- ASCII lower-casing of a string (model of str.lower() on the ASCII
identifiers this program handles). -/
def strLower (s : String) : String :=
  String.mk (s.data.map Char.toLower)

/-- Model of v.lower(): only strings have the attribute. -/
def pyLower : Json → Except String String
  | .str s => .ok (strLower s)
  | j => .error ("\x27" ++ pyTypeName j ++ "\x27 object has no attribute \x27lower\x27")

/-- Model of os.path.basename: everything after the last slash. -/
def basename (p : String) : String :=
  String.mk ((p.data.reverse.takeWhile (fun c => c ≠ '/')).reverse)

/-- Universal-newline translation performed by open(path, "r").read():
CR LF and lone CR both become LF. -/
def univNL : List Char → List Char
  | [] => []
  | '\r' :: '\n' :: rest => '\n' :: univNL rest
  | '\r' :: rest => '\n' :: univNL rest
  | c :: rest => c :: univNL rest

/-- Text-mode read of a file whose decoded character content is s. -/
def univNewlines (s : String) : String :=
  String.mk (univNL s.data)

/-- Lower-case hexadecimal digit character. -/
def hexDigit (n : Nat) : Char :=
  if n < 10 then Char.ofNat (48 + n) else Char.ofNat (87 + n)

/-- Four lower-case hex digits, most significant first (the form Python
json uses in escapes). -/
def hex4 (n : Nat) : List Char :=
  [hexDigit (n / 4096 % 16), hexDigit (n / 256 % 16), hexDigit (n / 16 % 16), hexDigit (n % 16)]

/-- json.dumps escaping of one character (default ensure_ascii=True):
quote and backslash get a backslash escape, the five short control escapes
are used, all other characters outside printable ASCII become one or (for
astral characters, via a UTF-16 surrogate pair) two backslash-u escapes. -/
def escChar (c : Char) : List Char :=
  let n := c.toNat
  if c = '"' then ['\\', '"']
  else if c = '\\' then ['\\', '\\']
  else if n = 8 then ['\\', 'b']
  else if n = 9 then ['\\', 't']
  else if n = 10 then ['\\', 'n']
  else if n = 12 then ['\\', 'f']
  else if n = 13 then ['\\', 'r']
  else if 32 ≤ n ∧ n ≤ 126 then [c]
  else if n < 65536 then '\\' :: 'u' :: hex4 n
  else ('\\' :: 'u' :: hex4 (55296 + (n - 65536) / 1024))
       ++ ('\\' :: 'u' :: hex4 (56320 + (n - 65536) % 1024))

/-- Escape a whole character sequence. -/
def escStr (cs : List Char) : List Char :=
  (cs.map escChar).flatten

/-- A JSON string literal for s: quote, escaped content, quote. -/
def quoteL (s : String) : List Char :=
  '"' :: escStr s.data ++ ['"']

/-- Decimal digit characters of an int (Python repr, used by json for ints). -/
def pyIntStrL (i : Int) : List Char :=
  if i < 0 then Char.ofNat 45 :: natDigits (-i).toNat else natDigits i.toNat

/-- Indentation emitted by json.dumps(..., indent=2) at nesting level lvl. -/
def indL (lvl : Nat) : List Char :=
  List.replicate (2 * lvl) ' '

mutual

/-- Model of json.dumps(v, indent=2) at nesting level lvl, as a character
sequence (with indent given, the separators default to a bare comma and
colon-space). -/
def dumpJsonL (lvl : Nat) : Json → List Char
  | .null => 'n' :: 'u' :: 'l' :: 'l' :: []
  | .bool true => 't' :: 'r' :: 'u' :: 'e' :: []
  | .bool false => 'f' :: 'a' :: 'l' :: 's' :: 'e' :: []
  | .num n => pyIntStrL n
  | .str s => quoteL s
  | .arr [] => '[' :: ']' :: []
  | .arr (x :: xs) =>
    '[' :: '\n' :: (indL (lvl + 1) ++ dumpJsonL (lvl + 1) x ++ dumpArrL (lvl + 1) xs
      ++ '\n' :: (indL lvl ++ [']']))
  | .obj [] => '\x7b' :: '\x7d' :: []
  | .obj (kv :: kvs) =>
    '\x7b' :: '\n' :: (indL (lvl + 1) ++ quoteL kv.1 ++ ':' :: ' ' :: dumpJsonL (lvl + 1) kv.2
      ++ dumpObjL (lvl + 1) kvs ++ '\n' :: (indL lvl ++ ['\x7d']))

/-- Remaining array elements, each preceded by comma, newline, indent. -/
def dumpArrL (lvl : Nat) : List Json → List Char
  | [] => []
  | x :: xs => ',' :: '\n' :: (indL lvl ++ dumpJsonL lvl x ++ dumpArrL lvl xs)

/-- Remaining object entries, each preceded by comma, newline, indent. -/
def dumpObjL (lvl : Nat) : List (String × Json) → List Char
  | [] => []
  | kv :: kvs =>
    ',' :: '\n' :: (indL lvl ++ quoteL kv.1 ++ ':' :: ' ' :: dumpJsonL lvl kv.2 ++ dumpObjL lvl kvs)

end

/-- json.dumps(result, indent=2) as called at line 141 of main.py. -/
def json_dumps (j : Json) : String :=
  String.mk (dumpJsonL 0 j)

/-! ### json.loads, modelled after CPython's pure-Python scanner.
Restrictions of the model: numbers are integers only (no fraction or
exponent, matching the Json type), and backslash-u escapes that denote
lone UTF-16 surrogates are rejected (a Lean Char cannot carry them);
json.dumps output never contains either construct. -/

/-- Whitespace skipped by the json scanner (space, tab, newline, return). -/
def skipWs : List Char → List Char
  | c :: rest => if isWs c then skipWs rest else c :: rest
  | [] => []

/-- Value of one hexadecimal digit character. -/
def hexVal (c : Char) : Option Nat :=
  if 48 ≤ c.toNat ∧ c.toNat ≤ 57 then some (c.toNat - 48)
  else if 97 ≤ c.toNat ∧ c.toNat ≤ 102 then some (c.toNat - 87)
  else if 65 ≤ c.toNat ∧ c.toNat ≤ 70 then some (c.toNat - 55)
  else none

/-- Read exactly four hex digits. -/
def readHex4 : List Char → Option (Nat × List Char)
  | a :: b :: c :: d :: rest =>
    match hexVal a, hexVal b, hexVal c, hexVal d with
    | some va, some vb, some vc, some vd =>
      some (va * 4096 + vb * 256 + vc * 16 + vd, rest)
    | _, _, _, _ => none
  | _ => none

/-- The single-character backslash escapes json accepts. -/
def escShort : Char → Option Char
  | '"' => some '"'
  | '\\' => some '\\'
  | '/' => some '/'
  | 'b' => some (Char.ofNat 8)
  | 'f' => some (Char.ofNat 12)
  | 'n' => some '\n'
  | 'r' => some '\r'
  | 't' => some '\t'
  | _ => none

/-- py_scanstring: decode the body of a string literal (the opening quote
already consumed) up to its closing quote; literal control characters are
rejected (strict mode). -/
def parseStr (fuel : Nat) (cs : List Char) : Option (List Char × List Char) :=
  match fuel with
  | 0 => none
  | fuel + 1 =>
    match cs with
    | [] => none
    | c :: rest =>
      if c = '"' then some ([], rest)
      else if c = '\\' then
        match rest with
        | [] => none
        | e :: rest2 =>
          if e = 'u' then
            match readHex4 rest2 with
            | none => none
            | some (n, r2) =>
              if 55296 ≤ n ∧ n ≤ 56319 then
                match r2 with
                | '\\' :: 'u' :: r3 =>
                  match readHex4 r3 with
                  | some (n2, r4) =>
                    if 56320 ≤ n2 ∧ n2 ≤ 57343 then
                      (parseStr fuel r4).map
                        (fun pr =>
                          (Char.ofNat (65536 + (n - 55296) * 1024 + (n2 - 56320)) :: pr.1, pr.2))
                    else none
                  | none => none
                | _ => none
              else if 56320 ≤ n ∧ n ≤ 57343 then none
              else (parseStr fuel r2).map (fun pr => (Char.ofNat n :: pr.1, pr.2))
          else
            match escShort e with
            | some d => (parseStr fuel rest2).map (fun pr => (d :: pr.1, pr.2))
            | none => none
      else if c.toNat < 32 then none
      else (parseStr fuel rest).map (fun pr => (c :: pr.1, pr.2))

/-- Integer literal: optional minus then at least one digit. -/
def parseNum (cs : List Char) : Option (Int × List Char) :=
  if cs.head? = some '-' then
    match cs.tail.span isDig with
    | (ds, r) => if ds = [] then none else some (-(digitsVal ds : Int), r)
  else
    match cs.span isDig with
    | (ds, r) => if ds = [] then none else some ((digitsVal ds : Int), r)

mutual

/-- scan_once: parse one JSON value starting exactly at the head of r
(the caller has skipped whitespace, as CPython's contexts do). -/
def parseValCore (fuel : Nat) (r : List Char) : Option (Json × List Char) :=
  match fuel with
  | 0 => none
  | fuel + 1 =>
    if r.take 4 = 'n' :: 'u' :: 'l' :: 'l' :: [] then some (.null, r.drop 4)
    else if r.take 4 = 't' :: 'r' :: 'u' :: 'e' :: [] then some (.bool true, r.drop 4)
    else if r.take 5 = 'f' :: 'a' :: 'l' :: 's' :: 'e' :: [] then some (.bool false, r.drop 5)
    else if r.head? = some '"' then
      (parseStr (r.tail.length + 1) r.tail).map (fun pr => (Json.str (String.mk pr.1), pr.2))
    else if r.head? = some '[' then
      let r1 := skipWs r.tail
      if r1.head? = some ']' then some (.arr [], r1.tail)
      else
        match parseValCore fuel r1 with
        | none => none
        | some (v, r2) =>
          match parseElems fuel r2 with
          | none => none
          | some (vs, r3) => some (.arr (v :: vs), r3)
    else if r.head? = some '\x7b' then
      let r1 := skipWs r.tail
      if r1.head? = some '\x7d' then some (.obj [], r1.tail)
      else if r1.head? = some '"' then
        match parseMember fuel r1.tail with
        | none => none
        | some (kv, r2) =>
          match parseMembers fuel r2 with
          | none => none
          | some (kvs, r3) => some (.obj (kv :: kvs), r3)
      else none
    else parseNum r |>.map (fun pr => (Json.num pr.1, pr.2))

/-- After one array element: expect comma (then a further value) or the
closing bracket. -/
def parseElems (fuel : Nat) (cs : List Char) : Option (List Json × List Char) :=
  match fuel with
  | 0 => none
  | fuel + 1 =>
    match skipWs cs with
    | ',' :: r =>
      match parseValCore fuel (skipWs r) with
      | none => none
      | some (v, r2) => (parseElems fuel r2).map (fun pr => (v :: pr.1, pr.2))
    | ']' :: r => some ([], r)
    | _ => none

/-- One object member, the key's opening quote already consumed: key
string, colon, value. -/
def parseMember (fuel : Nat) (cs : List Char) : Option ((String × Json) × List Char) :=
  match fuel with
  | 0 => none
  | fuel + 1 =>
    match parseStr (cs.length + 1) cs with
    | none => none
    | some (k, r) =>
      match skipWs r with
      | ':' :: r2 =>
        match parseValCore fuel (skipWs r2) with
        | none => none
        | some (v, r3) => some ((String.mk k, v), r3)
      | _ => none

/-- After one object member: expect comma (then a further quoted key and
member) or the closing brace. -/
def parseMembers (fuel : Nat) (cs : List Char) : Option (List (String × Json) × List Char) :=
  match fuel with
  | 0 => none
  | fuel + 1 =>
    match skipWs cs with
    | ',' :: r =>
      match skipWs r with
      | '"' :: r2 =>
        match parseMember fuel r2 with
        | none => none
        | some (kv, r3) => (parseMembers fuel r3).map (fun pr => (kv :: pr.1, pr.2))
      | _ => none
    | '\x7d' :: r => some ([], r)
    | _ => none

end

/-- json.loads: skip leading whitespace, parse one value, require only
whitespace to follow. -/
def json_loads (s : String) : Option Json :=
  match parseValCore (s.data.length + 1) (skipWs s.data) with
  | some (v, rest) => if skipWs rest = [] then some v else none
  | none => none

/-- Input suffixes after which a serialized value can be safely parsed:
an integer literal must not be followed directly by another digit (json
output never does this — a number is followed by a separator, a close
bracket, or the end of input). -/
def restSafe : List Char → Prop
  | [] => True
  | c :: _ => isDig c = false

mutual

/-- Call-depth fuel sufficient for parseValCore to parse v. -/
def pfuel : Json → Nat
  | .null => 1
  | .bool _ => 1
  | .num _ => 1
  | .str _ => 1
  | .arr [] => 1
  | .arr (x :: xs) => 1 + pfuel x + pfuelList xs
  | .obj [] => 1
  | .obj (kv :: kvs) => 1 + (1 + pfuel kv.2) + pfuelObj kvs

/-- Fuel sufficient for parseElems on the remaining elements. -/
def pfuelList : List Json → Nat
  | [] => 1
  | x :: xs => 1 + pfuel x + pfuelList xs

/-- Fuel sufficient for parseMembers on the remaining members. -/
def pfuelObj : List (String × Json) → Nat
  | [] => 1
  | kv :: kvs => 1 + (1 + pfuel kv.2) + pfuelObj kvs

end

/-! ## The interactive flow -/

/-- The compiled-in base URL. -/
def BASE_URL : String := "http://localhost:8000"

/-- Observable events of one run: console prints (rich markup stripped),
outgoing HTTP requests, and accepted prompt answers. -/
inductive Event where
  | print (msg : String) : Event
  | httpGet (url : String) : Event
  | httpPost (url : String) (filename : String) (content : String) : Event
  | prompt (choices : List String) (value : Int) : Event
  deriving DecidableEq

/-- One HTTP response as the environment supplies it: a status code and
the outcome of response.json() (error = the JSONDecodeError message). -/
structure HttpResp where
  status : Nat
  body : Except String Json

/-- The environment a run executes against: the file system, the three
server responses, and the keyboard input offered to each of the three
prompts (each raw line as typed). -/
structure Env where
  fileExists : Bool
  fileData : Except String String
  leaderboardsResp : HttpResp
  gpusResp : HttpResp
  submitResp : HttpResp
  lbInputs : List String
  runnerInputs : List String
  gpuInputs : List String

/-- Result of a program fragment: normal value, process termination by
sys.exit (SystemExit is not an Exception, so it passes the handler),
a propagating Python exception carrying str(e), or blocking forever at a
prompt.  Each constructor carries the event trace emitted so far. -/
inductive StepResult (α : Type) where
  | ok (tr : List Event) (a : α) : StepResult α
  | exit (tr : List Event) (code : Nat) : StepResult α
  | exc (tr : List Event) (msg : String) : StepResult α
  | blocked (tr : List Event) : StepResult α

/-- Prefix a trace onto a fragment result. -/
def withTrace (tr : List Event) : StepResult α → StepResult α
  | .ok tr2 a => .ok (tr ++ tr2) a
  | .exit tr2 c => .exit (tr ++ tr2) c
  | .exc tr2 m => .exc (tr ++ tr2) m
  | .blocked tr2 => .blocked (tr ++ tr2)

/-- Sequencing of fragments, accumulating traces. -/
def bindS (x : StepResult α) (f : α → StepResult β) : StepResult β :=
  match x with
  | .ok tr a => withTrace tr (f a)
  | .exit tr c => .exit tr c
  | .exc tr m => .exc tr m
  | .blocked tr => .blocked tr

instance : Monad StepResult where
  pure a := .ok [] a
  bind := bindS

/-- Emit one event. -/
def emit (e : Event) : StepResult Unit := .ok [e] ()

/-- Emit a list of events. -/
def emits (es : List Event) : StepResult Unit := .ok es ()

/-- sys.exit(n). -/
def sysExit (n : Nat) : StepResult α := .exit [] n

/-- Run a Python expression that may raise. -/
def liftExc : Except String α → StepResult α
  | .ok a => .ok [] a
  | .error m => .exc [] m

/-- An IntPrompt.ask call: consume inputs until one is accepted; if the
input stream offers no acceptable answer the program waits forever. -/
def promptStep (choices : List String) (inputs : List String) : StepResult Int :=
  match promptAsk choices inputs with
  | some v => .ok [.prompt choices v] v
  | none => .blocked []

/-- fetch_leaderboards (main.py lines 18-25): GET /leaderboards; non-200
prints and exits nonzero; otherwise return response.json(). -/
def fetch_leaderboards (env : Env) : StepResult Json := do
  emit (.httpGet (BASE_URL ++ "/leaderboards"))
  if env.leaderboardsResp.status ≠ 200 then do
    emit (.print "Failed to fetch leaderboards")
    sysExit 1
  else
    liftExc env.leaderboardsResp.body

/-- fetch_available_gpus (main.py lines 28-35): GET
/\x7bleaderboard\x7d/\x7brunner\x7d/gpus with the selected leaderboard value
formatted into the URL; non-200 prints and exits nonzero. -/
def fetch_available_gpus (env : Env) (leaderboard : Json) (runner : String) :
    StepResult Json := do
  emit (.httpGet (BASE_URL ++ "/" ++ pyStr leaderboard ++ "/" ++ runner ++ "/gpus"))
  if env.gpusResp.status ≠ 200 then do
    emit (.print "Failed to fetch GPUs")
    sysExit 1
  else
    liftExc env.gpusResp.body

/-- submit_solution (main.py lines 38-57): read the file in text mode,
take the basename, POST the multipart field; non-200 prints a failure and
returns None, otherwise return response.json(). -/
def submit_solution (env : Env) (leaderboard runner gpu : String) (filepath : String) :
    StepResult (Option Json) := do
  let raw ← liftExc env.fileData
  let solution_content := univNewlines raw
  let filename := basename filepath
  emit (.httpPost (BASE_URL ++ "/" ++ leaderboard ++ "/" ++ runner ++ "/" ++ gpu)
    filename solution_content)
  if env.submitResp.status ≠ 200 then do
    emit (.print "Failed to submit solution")
    pure none
  else do
    let j ← liftExc env.submitResp.body
    pure (some j)

/-- The header line plus numbered lines a menu prints. -/
def menuEvents (header : String) (items : List String) : List Event :=
  .print header ::
    (items.enum.map (fun p => .print (pyIntStr ((p.1 : Int) + 1) ++ ". " ++ p.2)))

/-- Reporting tail of _submit (main.py lines 137-145): no result means the
failure message is printed and the flow returns; otherwise the json.dumps
pretty-print and the success message are printed. -/
def reportResult : Option Json → StepResult Unit
  | none => emit (.print "Failed to submit solution")
  | some r =>
    emits [.print "Result:", .print (json_dumps r),
           .print "Solution submitted successfully!"]

/-- The body of _submit's try block (main.py lines 71-145). -/
def submit_body (env : Env) (filepath : String) : StepResult Unit := do
  if env.fileExists = false then do
    emit (.print ("Error: File \x27" ++ filepath ++ "\x27 not found"))
    sysExit 1
  else do
    let leaderboards ← fetch_leaderboards env
    let xs ← liftExc (pyIter leaderboards)
    let leaderboard_names ← liftExc (xs.mapM (fun x => pyGetItem x "name"))
    emits (menuEvents "Available Leaderboards:" (leaderboard_names.map pyStr))
    let leaderboard_idx ← promptStep (rangeChoices leaderboard_names.length) env.lbInputs
    let selected_leaderboard ← liftExc (pyIndex leaderboard_names (leaderboard_idx - 1))
    let runners : List String := ["modal", "github"]
    emits (menuEvents "Available Runners:" runners)
    let runner_idx ← promptStep ["1", "2"] env.runnerInputs
    let selected_runner ← liftExc (pyIndex runners (runner_idx - 1))
    let gpusJson ← fetch_available_gpus env selected_leaderboard selected_runner
    let gpus ← liftExc (pyIter gpusJson)
    emits (menuEvents "Available GPUs:" (gpus.map pyStr))
    let gpu_idx ← promptStep (rangeChoices gpus.length) env.gpuInputs
    let selected_gpu ← liftExc (pyIndex gpus (gpu_idx - 1))
    let lbLow ← liftExc (pyLower selected_leaderboard)
    let runnerLow := strLower selected_runner
    let gpuLow ← liftExc (pyLower selected_gpu)
    let result ← submit_solution env lbLow runnerLow gpuLow filepath
    reportResult result

/-- Outcome of a whole run: process exit with a trace, or hanging forever
at a prompt. -/
inductive RunResult where
  | exited (tr : List Event) (code : Nat) : RunResult
  | hang (tr : List Event) : RunResult

/-- _submit with its top-level handler (main.py lines 68-149) followed by
process termination: normal completion exits 0, sys.exit propagates (it
raises SystemExit, which "except Exception" does not catch), and any other
exception is printed and turned into exit 1. -/
def run_submit (env : Env) (filepath : String) : RunResult :=
  match submit_body env filepath with
  | .ok tr _ => .exited tr 0
  | .exit tr c => .exited tr c
  | .exc tr m => .exited (tr ++ [.print ("Error: " ++ m)]) 1
  | .blocked tr => .hang tr

/-- The event trace of a successful walk through all three menus: the
leaderboards GET, the three menus with their accepted prompt answers, and
the GPU fetch GET (which uses the original-case leaderboard name). -/
def menuTrace (names gpuNames : List String) (vi vr vk : Int) (lbName : String) :
    List Event :=
  Event.httpGet (BASE_URL ++ "/leaderboards")
    :: (menuEvents "Available Leaderboards:" names
    ++ Event.prompt (rangeChoices names.length) vi
    :: (menuEvents "Available Runners:" ["modal", "github"]
    ++ Event.prompt ["1", "2"] vr
    :: Event.httpGet (BASE_URL ++ "/" ++ lbName ++ "/"
         ++ (if vr = 1 then "modal" else "github") ++ "/gpus")
    :: (menuEvents "Available GPUs:" gpuNames
    ++ [Event.prompt (rangeChoices gpuNames.length) vk])))

/-- The HTTP requests (GETs and POSTs) appearing in a trace. -/
def httpEvents (tr : List Event) : List Event :=
  tr.filter (fun e =>
    match e with
    | .httpGet _ => true
    | .httpPost _ _ _ => true
    | _ => false)

/-- The POST requests appearing in a trace. -/
def postEvents (tr : List Event) : List Event :=
  tr.filter (fun e =>
    match e with
    | .httpPost _ _ _ => true
    | _ => false)

/-- The POSTs a run issued, regardless of how it ended. -/
def runPosts : RunResult → List Event
  | .exited tr _ => postEvents tr
  | .hang tr => postEvents tr

/-- The GET requests appearing in a trace. -/
def getEvents (tr : List Event) : List Event :=
  tr.filter (fun e =>
    match e with
    | .httpGet _ => true
    | _ => false)

@[simp] theorem bind_ok (tr : List Event) (a : α) (f : α → StepResult β) :
    (StepResult.ok tr a >>= f) = withTrace tr (f a) := rfl

@[simp] theorem bind_exit (tr : List Event) (c : Nat) (f : α → StepResult β) :
    (StepResult.exit tr c >>= f) = .exit tr c := rfl

@[simp] theorem bind_exc (tr : List Event) (m : String) (f : α → StepResult β) :
    (StepResult.exc tr m >>= f) = .exc tr m := rfl

@[simp] theorem bind_blocked (tr : List Event) (f : α → StepResult β) :
    (StepResult.blocked tr >>= f) = .blocked tr := rfl

@[simp] theorem withTrace_ok (tr tr2 : List Event) (a : α) :
    withTrace tr (StepResult.ok tr2 a) = .ok (tr ++ tr2) a := rfl

@[simp] theorem withTrace_exit (tr tr2 : List Event) (c : Nat) :
    withTrace tr (StepResult.exit tr2 c : StepResult α) = .exit (tr ++ tr2) c := rfl

@[simp] theorem withTrace_exc (tr tr2 : List Event) (m : String) :
    withTrace tr (StepResult.exc tr2 m : StepResult α) = .exc (tr ++ tr2) m := rfl

@[simp] theorem withTrace_blocked (tr tr2 : List Event) :
    withTrace tr (StepResult.blocked tr2 : StepResult α) = .blocked (tr ++ tr2) := rfl

@[simp] theorem pure_def (a : α) : (pure a : StepResult α) = .ok [] a := rfl

@[simp] theorem liftExc_ok (a : α) : liftExc (.ok a) = StepResult.ok [] a := rfl

@[simp] theorem liftExc_error (m : String) :
    liftExc (.error m) = (StepResult.exc [] m : StepResult α) := rfl

theorem char_toNat_ofNat (n : Nat) (h : Nat.isValidChar n) : (Char.ofNat n).toNat = n := by
  rw [Char.ofNat, dif_pos h]
  rfl

theorem char_toNat_ofNat_small (n : Nat) (h : n < 55296) : (Char.ofNat n).toNat = n :=
  char_toNat_ofNat n (Or.inl h)

theorem char_eq_iff_toNat {c d : Char} : c = d ↔ c.toNat = d.toNat := by
  constructor
  · intro h; rw [h]
  · intro h
    apply Char.ext
    exact UInt32.ext h

theorem natDigits_small {n : Nat} (h : n < 10) : natDigits n = [Char.ofNat (48 + n)] := by
  rw [natDigits]
  simp [h]

theorem natDigits_large {n : Nat} (h : ¬ n < 10) :
    natDigits n = natDigits (n / 10) ++ [Char.ofNat (48 + n % 10)] := by
  rw [natDigits]
  simp [h]

theorem natDigits_all_dig (n : Nat) : ∀ c ∈ natDigits n, isDig c = true := by
  induction n using Nat.strong_induction_on with
  | _ n ih =>
    by_cases h : n < 10
    · rw [natDigits_small h]
      intro c hc
      simp at hc
      subst hc
      simp [isDig, char_toNat_ofNat_small (48 + n) (by omega)]
      omega
    · rw [natDigits_large h]
      intro c hc
      rcases List.mem_append.mp hc with h1 | h2
      · exact ih (n / 10) (Nat.div_lt_self (by omega) (by omega)) c h1
      · simp at h2
        subst h2
        simp [isDig, char_toNat_ofNat_small (48 + n % 10) (by omega)]
        omega

theorem natDigits_ne_nil (n : Nat) : natDigits n ≠ [] := by
  by_cases h : n < 10
  · rw [natDigits_small h]; simp
  · rw [natDigits_large h]; simp

theorem digitsVal_append_single (xs : List Char) (c : Char) :
    digitsVal (xs ++ [c]) = 10 * digitsVal xs + (c.toNat - 48) := by
  simp [digitsVal, List.foldl_append]
  omega

theorem digitsVal_natDigits (n : Nat) : digitsVal (natDigits n) = n := by
  induction n using Nat.strong_induction_on with
  | _ n ih =>
    by_cases h : n < 10
    · rw [natDigits_small h]
      simp [digitsVal, char_toNat_ofNat_small (48 + n) (by omega)]
    · rw [natDigits_large h, digitsVal_append_single,
        ih (n / 10) (Nat.div_lt_self (by omega) (by omega)),
        char_toNat_ofNat_small (48 + n % 10) (by omega)]
      omega

theorem pyInt_digits (n : Nat) : pyInt (natDigits n) = some (n : Int) := by
  rcases hshape : natDigits n with _ | ⟨c, cs⟩
  · exact absurd hshape (natDigits_ne_nil n)
  · have hall := natDigits_all_dig n
    rw [hshape] at hall
    have hc : isDig c = true := hall c (by simp)
    have hc1 : c ≠ '-' := by
      intro he
      subst he
      exact absurd hc (by decide)
    have hc2 : c ≠ '+' := by
      intro he
      subst he
      exact absurd hc (by decide)
    have hcs : (c :: cs).all isDig = true := List.all_eq_true.mpr hall
    rw [pyInt]
    simp only [hc1, if_false, hc2, hcs, if_true]
    rw [← hshape, digitsVal_natDigits]

theorem pyInt_pyIntStr (i : Int) : pyInt (pyIntStr i).data = some i := by
  by_cases h : i < 0
  · rw [pyIntStr, if_pos h]
    show pyInt (Char.ofNat 45 :: natDigits (-i).toNat) = some i
    have h45 : Char.ofNat 45 = '-' := by decide
    rw [h45, pyInt]
    rw [if_pos rfl,
      if_pos ⟨natDigits_ne_nil _, List.all_eq_true.mpr (natDigits_all_dig _)⟩,
      digitsVal_natDigits]
    simp only [Option.some.injEq]
    omega
  · rw [pyIntStr, if_neg h]
    show pyInt (natDigits i.toNat) = some i
    rw [pyInt_digits]
    simp only [Option.some.injEq]
    omega

theorem isDig_not_ws {c : Char} (h : isDig c = true) : isWs c = false := by
  simp [isDig] at h
  simp [isWs]
  omega

theorem pyStrip_eq_self {cs : List Char} (h : ∀ c ∈ cs, isWs c = false) :
    pyStrip cs = cs := by
  have h1 : cs.dropWhile isWs = cs := by
    cases cs with
    | nil => rfl
    | cons c rest => simp [List.dropWhile, h c (by simp)]
  rw [pyStrip, h1]
  have h2 : cs.reverse.dropWhile isWs = cs.reverse := by
    cases hr : cs.reverse with
    | nil => rfl
    | cons c rest =>
      have hm : c ∈ cs := by
        rw [← List.mem_reverse, hr]
        simp
      simp [List.dropWhile, h c hm]
  rw [h2, List.reverse_reverse]

theorem pyIntStr_no_ws (i : Int) : ∀ c ∈ (pyIntStr i).data, isWs c = false := by
  by_cases h : i < 0
  · rw [pyIntStr, if_pos h]
    intro c hc
    rcases List.mem_cons.mp hc with he | hm
    · subst he; decide
    · exact isDig_not_ws (natDigits_all_dig _ c hm)
  · rw [pyIntStr, if_neg h]
    intro c hc
    exact isDig_not_ws (natDigits_all_dig _ c hc)

theorem pyStrip_pyIntStr (i : Int) : pyStrip (pyIntStr i).data = (pyIntStr i).data :=
  pyStrip_eq_self (pyIntStr_no_ws i)

theorem mem_rangeChoices {t : String} {n : Nat} :
    t ∈ rangeChoices n ↔ ∃ k, k < n ∧ t = pyIntStr ((k : Int) + 1) := by
  unfold rangeChoices
  rw [List.mem_map]
  constructor
  · rintro ⟨k, hk, he⟩
    exact ⟨k, List.mem_range.mp hk, he.symm⟩
  · rintro ⟨k, hk, ht⟩
    exact ⟨k, List.mem_range.mpr hk, ht.symm⟩

theorem promptAsk_skips {choices : List String} {s : String} (inputs : List String)
    (h : String.mk (pyStrip s.data) ∉ choices) :
    promptAsk choices (s :: inputs) = promptAsk choices inputs := by
  rw [promptAsk]
  cases hp : pyInt (pyStrip s.data) with
  | none => simp
  | some w => simp [h]

theorem promptAsk_range {n : Nat} {inputs : List String} {v : Int}
    (h : promptAsk (rangeChoices n) inputs = some v) : 1 ≤ v ∧ v ≤ (n : Int) := by
  induction inputs with
  | nil => simp [promptAsk] at h
  | cons s rest ih =>
    rw [promptAsk] at h
    cases hp : pyInt (pyStrip s.data) with
    | none =>
      simp only [hp] at h
      exact ih h
    | some w =>
      simp only [hp] at h
      by_cases hm : String.mk (pyStrip s.data) ∈ rangeChoices n
      · rw [if_pos hm] at h
        rcases mem_rangeChoices.mp hm with ⟨k, hk, ht⟩
        have hd : pyStrip s.data = (pyIntStr ((k : Int) + 1)).data := by
          have := congrArg String.data ht
          exact this
        rw [hd, pyInt_pyIntStr] at hp
        cases hp
        cases h
        omega
      · rw [if_neg hm] at h
        exact ih h

theorem pyIntStr_small (n : Nat) (h : n < 10) :
    pyIntStr (n : Int) = String.mk [Char.ofNat (48 + n)] := by
  rw [pyIntStr, if_neg (by omega)]
  rw [show ((n : Int)).toNat = n from by omega]
  rw [natDigits_small h]

theorem rangeChoices_two : rangeChoices 2 = ["1", "2"] := by
  rw [rangeChoices, show List.range 2 = [0, 1] from rfl]
  simp only [List.map_cons, List.map_nil]
  rw [show ((0 : Nat) : Int) + 1 = ((1 : Nat) : Int) from rfl,
      show ((1 : Nat) : Int) + 1 = ((2 : Nat) : Int) from rfl,
      pyIntStr_small 1 (by omega), pyIntStr_small 2 (by omega)]

theorem rangeChoices_three : rangeChoices 3 = ["1", "2", "3"] := by
  rw [rangeChoices, show List.range 3 = [0, 1, 2] from rfl]
  simp only [List.map_cons, List.map_nil]
  rw [show ((0 : Nat) : Int) + 1 = ((1 : Nat) : Int) from rfl,
      show ((1 : Nat) : Int) + 1 = ((2 : Nat) : Int) from rfl,
      show ((2 : Nat) : Int) + 1 = ((3 : Nat) : Int) from rfl,
      pyIntStr_small 1 (by omega), pyIntStr_small 2 (by omega),
      pyIntStr_small 3 (by omega)]

theorem rangeChoices_one : rangeChoices 1 = ["1"] := by
  rw [rangeChoices, show List.range 1 = [0] from rfl]
  simp only [List.map_cons, List.map_nil]
  rw [show ((0 : Nat) : Int) + 1 = ((1 : Nat) : Int) from rfl,
      pyIntStr_small 1 (by omega)]

@[simp] theorem withTrace_withTrace (t1 t2 : List Event) (x : StepResult α) :
    withTrace t1 (withTrace t2 x) = withTrace (t1 ++ t2) x := by
  cases x <;> simp [withTrace, List.append_assoc]

@[simp] theorem withTrace_nil (x : StepResult α) : withTrace [] x = x := by
  cases x <;> simp [withTrace]

theorem pyStr_str (s : String) : pyStr (Json.str s) = s := rfl

theorem getNames_loop (names : List String) (acc : List Json) :
    List.mapM.loop (fun x => pyGetItem x "name")
      (names.map (fun nm => Json.obj [("name", Json.str nm)])) acc =
      Except.ok (acc.reverse ++ names.map Json.str) := by
  induction names generalizing acc with
  | nil =>
    simp only [List.map_nil, List.mapM.loop, List.append_nil]
    rfl
  | cons nm rest ih =>
    simp only [List.map_cons, List.mapM.loop]
    rw [show pyGetItem (Json.obj [("name", Json.str nm)]) "name" = Except.ok (Json.str nm) from rfl]
    show List.mapM.loop (fun x => pyGetItem x "name")
      (rest.map (fun nm => Json.obj [("name", Json.str nm)])) (Json.str nm :: acc) = _
    rw [ih]
    simp

theorem map_pyStr_comp (names : List String) :
    names.map (pyStr ∘ Json.str) = names := by
  have h : pyStr ∘ Json.str = id := by
    funext s
    rfl
  rw [h, List.map_id]

theorem pyIndex_pos (xs : List α) (v : Int) (h1 : 1 ≤ v) (h2 : (v - 1).toNat < xs.length) :
    pyIndex xs (v - 1) = .ok (xs.get ⟨(v - 1).toNat, h2⟩) := by
  rw [pyIndex]
  simp only [show ¬ (v - 1 < 0) from by omega, if_false]
  rw [dif_pos ⟨by omega, h2⟩]

theorem pyIndex_map_str (names : List String) (v : Int) (x : String)
    (h1 : 1 ≤ v) (hx : names[(v - 1).toNat]? = some x) :
    pyIndex (names.map Json.str) (v - 1) = .ok (Json.str x) := by
  have h2 : (v - 1).toNat < names.length := (List.getElem?_eq_some.mp hx).1
  have h2m : (v - 1).toNat < (names.map Json.str).length := by simpa using h2
  rw [pyIndex_pos _ v h1 h2m]
  congr 1
  have hg : (names.map Json.str).get ⟨(v - 1).toNat, h2m⟩ =
      Json.str (names.get ⟨(v - 1).toNat, h2⟩) := by
    simp
  rw [hg]
  congr 1
  have := (List.getElem?_eq_some.mp hx).2
  simpa using this

theorem pyIndex_runners (v : Int) (h1 : 1 ≤ v) (h2 : v ≤ 2) :
    pyIndex ["modal", "github"] (v - 1) = .ok (if v = 1 then "modal" else "github") := by
  by_cases hv : v = 1
  · subst hv; rfl
  · have hv2 : v = 2 := by omega
    subst hv2; rfl

/-- Under a well-formed environment (leaderboards an array of objects with
string name fields, GPUs an array of strings, all three prompts eventually
answered within range), the body of _submit reduces to the menu trace
followed by the submission step: the GPU fetch uses the original-case
leaderboard name, and submit_solution receives the lower-cased
leaderboard, runner, and GPU. -/
theorem submit_body_menu
    (names gpuNames : List String) (fd : Except String String)
    (ss : Nat) (sb : Except String Json) (lbIn rIn gIn : List String)
    (vi vr vk : Int) (fp : String) (lbName gpuName : String)
    (hlb : promptAsk (rangeChoices names.length) lbIn = some vi)
    (hr : promptAsk ["1", "2"] rIn = some vr)
    (hname : names[(vi - 1).toNat]? = some lbName)
    (hg : promptAsk (rangeChoices gpuNames.length) gIn = some vk)
    (hgpu : gpuNames[(vk - 1).toNat]? = some gpuName) :
    submit_body ⟨true, fd,
        ⟨200, .ok (Json.arr (names.map (fun nm => Json.obj [("name", Json.str nm)])))⟩,
        ⟨200, .ok (Json.arr (gpuNames.map Json.str))⟩,
        ⟨ss, sb⟩, lbIn, rIn, gIn⟩ fp =
      withTrace (menuTrace names gpuNames vi vr vk lbName)
        (submit_solution ⟨true, fd,
            ⟨200, .ok (Json.arr (names.map (fun nm => Json.obj [("name", Json.str nm)])))⟩,
            ⟨200, .ok (Json.arr (gpuNames.map Json.str))⟩,
            ⟨ss, sb⟩, lbIn, rIn, gIn⟩
          (strLower lbName) (strLower (if vr = 1 then "modal" else "github"))
          (strLower gpuName) fp >>= reportResult) := by
  have hbi := promptAsk_range hlb
  have hbk := promptAsk_range hg
  have hbr : 1 ≤ vr ∧ vr ≤ 2 := by
    have h2 : promptAsk (rangeChoices 2) rIn = some vr := by rw [rangeChoices_two]; exact hr
    have := promptAsk_range h2
    simpa using this
  simp [submit_body, fetch_leaderboards, fetch_available_gpus, emit, emits, sysExit,
    promptStep, liftExc, pyIter, getNames_loop, map_pyStr_comp, hlb, hr, hg,
    pyIndex_map_str names vi lbName hbi.1 hname,
    pyIndex_map_str gpuNames vk gpuName hbk.1 hgpu,
    pyIndex_runners vr hbr.1 hbr.2,
    pyStr_str, pyLower, strLower, menuTrace, List.append_assoc]

/-- C4: at every menu, an accepted selection v from a displayed list of
length n satisfies 1 ≤ v ≤ n and picks exactly element v-1 of the list as
returned by the server; any typed integer outside 1..n is not among the
prompt's choices, and any input whose stripped text is not among the
choices is consumed by a re-prompt and never reaches the selection logic.
The runner menu's hard-coded choices coincide with the generic form for
n = 2, so the property covers the leaderboard, runner, and GPU menus. -/
theorem C4_menu_selection :
    (∀ (xs : List Json) (inputs : List String) (v : Int),
        promptAsk (rangeChoices xs.length) inputs = some v →
        1 ≤ v ∧ v ≤ (xs.length : Int) ∧
        ∃ x, xs[(v - 1).toNat]? = some x ∧ pyIndex xs (v - 1) = .ok x) ∧
    (∀ (w : Int) (n : Nat), (w < 1 ∨ (n : Int) < w) →
        String.mk (pyStrip (pyIntStr w).data) ∉ rangeChoices n) ∧
    (∀ (choices : List String) (s : String) (inputs : List String),
        String.mk (pyStrip s.data) ∉ choices →
        promptAsk choices (s :: inputs) = promptAsk choices inputs) ∧
    rangeChoices 2 = ["1", "2"] := by
  refine ⟨?_, ?_, ?_, ?_⟩
  · intro xs inputs v h
    have hb := promptAsk_range h
    have hv1 : ¬ (v - 1 < 0) := by omega
    have hlt : (v - 1).toNat < xs.length := by omega
    refine ⟨hb.1, hb.2, xs[(v - 1).toNat], List.getElem?_eq_getElem hlt, ?_⟩
    rw [pyIndex]
    simp only [hv1, if_false]
    rw [dif_pos ⟨by omega, hlt⟩]
    rfl
  · intro w n hw hmem
    rw [pyStrip_pyIntStr] at hmem
    rcases mem_rangeChoices.mp hmem with ⟨k, hk, ht⟩
    have := congrArg (fun s => pyInt s.data) ht
    simp only [pyInt_pyIntStr] at this
    cases this
    omega
  · intro choices s inputs h
    exact promptAsk_skips inputs h
  · exact rangeChoices_two

/-- Witness for C4: with menu [A, B, C], inputs "0" (rejected) then "2"
(accepted), the selection is element 1, the string B. -/
theorem C4_menu_selection_witness :
    1 ≤ (2 : Int) ∧
    (2 : Int) ≤ (([Json.str "A", Json.str "B", Json.str "C"].length : Nat) : Int) ∧
    ∃ x, [Json.str "A", Json.str "B", Json.str "C"][((2 : Int) - 1).toNat]? = some x ∧
      pyIndex [Json.str "A", Json.str "B", Json.str "C"] ((2 : Int) - 1) = .ok x :=
  C4_menu_selection.1 [Json.str "A", Json.str "B", Json.str "C"] ["0", "2"] 2 (by
    rw [show [Json.str "A", Json.str "B", Json.str "C"].length = 3 from rfl,
      rangeChoices_three]
    decide)

/-- C5: if the input file path does not exist on disk, the process exits
nonzero with only the not-found message printed; the trace contains no HTTP
request of any kind (no leaderboard fetch, no GPU fetch, no submission). -/
theorem C5_file_missing_no_http (fd : Except String String) (lb g sb : HttpResp)
    (i1 i2 i3 : List String) (fp : String) :
    run_submit ⟨false, fd, lb, g, sb, i1, i2, i3⟩ fp =
      .exited [.print ("Error: File \x27" ++ fp ++ "\x27 not found")] 1 ∧
    httpEvents [.print ("Error: File \x27" ++ fp ++ "\x27 not found")] = [] := by
  constructor
  · simp [run_submit, submit_body, emit, sysExit]
  · rfl

/-- C3: if the leaderboards fetch returns any status other than 200, the
process exits nonzero, and the only HTTP request in the whole run is that
single GET — neither the GPU fetch nor the submission POST is issued. -/
theorem C3_fetch_leaderboards_fail (fd : Except String String) (s : Nat)
    (b : Except String Json) (g sb : HttpResp) (i1 i2 i3 : List String)
    (fp : String) (hs : s ≠ 200) :
    run_submit ⟨true, fd, ⟨s, b⟩, g, sb, i1, i2, i3⟩ fp =
      .exited [.httpGet (BASE_URL ++ "/leaderboards"),
               .print "Failed to fetch leaderboards"] 1 ∧
    httpEvents [.httpGet (BASE_URL ++ "/leaderboards"),
                .print "Failed to fetch leaderboards"] =
      [.httpGet (BASE_URL ++ "/leaderboards")] := by
  constructor
  · simp [run_submit, submit_body, fetch_leaderboards, emit, sysExit, hs]
  · rfl

theorem submit_solution_read_fail (lbR gR sR : HttpResp) (i1 i2 i3 : List String)
    (m : String) (lb run gpu fp : String) :
    submit_solution ⟨true, .error m, lbR, gR, sR, i1, i2, i3⟩ lb run gpu fp =
      .exc [] m := by
  simp [submit_solution, liftExc]

theorem submit_solution_non200 (lbR gR : HttpResp) (i1 i2 i3 : List String)
    (fdStr : String) (ss : Nat) (sb : Except String Json) (hss : ss ≠ 200)
    (lb run gpu fp : String) :
    submit_solution ⟨true, .ok fdStr, lbR, gR, ⟨ss, sb⟩, i1, i2, i3⟩ lb run gpu fp =
      .ok [.httpPost (BASE_URL ++ "/" ++ lb ++ "/" ++ run ++ "/" ++ gpu)
             (basename fp) (univNewlines fdStr),
           .print "Failed to submit solution"] none := by
  simp [submit_solution, liftExc, emit, hss]

theorem submit_solution_200_ok (lbR gR : HttpResp) (i1 i2 i3 : List String)
    (fdStr : String) (j : Json) (lb run gpu fp : String) :
    submit_solution ⟨true, .ok fdStr, lbR, gR, ⟨200, .ok j⟩, i1, i2, i3⟩ lb run gpu fp =
      .ok [.httpPost (BASE_URL ++ "/" ++ lb ++ "/" ++ run ++ "/" ++ gpu)
             (basename fp) (univNewlines fdStr)] (some j) := by
  simp [submit_solution, liftExc, emit]

theorem submit_solution_200_badjson (lbR gR : HttpResp) (i1 i2 i3 : List String)
    (fdStr : String) (m : String) (lb run gpu fp : String) :
    submit_solution ⟨true, .ok fdStr, lbR, gR, ⟨200, .error m⟩, i1, i2, i3⟩ lb run gpu fp =
      .exc [.httpPost (BASE_URL ++ "/" ++ lb ++ "/" ++ run ++ "/" ++ gpu)
              (basename fp) (univNewlines fdStr)] m := by
  simp [submit_solution, liftExc, emit]

@[simp] theorem postEvents_nil : postEvents [] = [] := rfl

@[simp] theorem postEvents_cons_print (m : String) (tr : List Event) :
    postEvents (.print m :: tr) = postEvents tr := rfl

@[simp] theorem postEvents_cons_get (u : String) (tr : List Event) :
    postEvents (.httpGet u :: tr) = postEvents tr := rfl

@[simp] theorem postEvents_cons_prompt (c : List String) (v : Int) (tr : List Event) :
    postEvents (.prompt c v :: tr) = postEvents tr := rfl

@[simp] theorem postEvents_cons_post (u f c : String) (tr : List Event) :
    postEvents (.httpPost u f c :: tr) = .httpPost u f c :: postEvents tr := rfl

@[simp] theorem postEvents_append (a b : List Event) :
    postEvents (a ++ b) = postEvents a ++ postEvents b := by
  simp [postEvents, List.filter_append]

@[simp] theorem postEvents_menu (h : String) (items : List String) :
    postEvents (menuEvents h items) = [] := by
  rw [menuEvents, postEvents]
  rw [List.filter_cons_of_neg (by simp)]
  rw [List.filter_eq_nil_iff]
  intro a ha
  rcases List.mem_map.mp ha with ⟨p, hp, he⟩
  subst he
  simp

@[simp] theorem getEvents_nil : getEvents [] = [] := rfl

@[simp] theorem getEvents_cons_print (m : String) (tr : List Event) :
    getEvents (.print m :: tr) = getEvents tr := rfl

@[simp] theorem getEvents_cons_prompt (c : List String) (v : Int) (tr : List Event) :
    getEvents (.prompt c v :: tr) = getEvents tr := rfl

@[simp] theorem getEvents_cons_post (u f c : String) (tr : List Event) :
    getEvents (.httpPost u f c :: tr) = getEvents tr := rfl

@[simp] theorem getEvents_cons_get (u : String) (tr : List Event) :
    getEvents (.httpGet u :: tr) = .httpGet u :: getEvents tr := rfl

@[simp] theorem getEvents_append (a b : List Event) :
    getEvents (a ++ b) = getEvents a ++ getEvents b := by
  simp [getEvents, List.filter_append]

@[simp] theorem getEvents_menu (h : String) (items : List String) :
    getEvents (menuEvents h items) = [] := by
  rw [menuEvents, getEvents]
  rw [List.filter_cons_of_neg (by simp)]
  rw [List.filter_eq_nil_iff]
  intro a ha
  rcases List.mem_map.mp ha with ⟨p, hp, he⟩
  subst he
  simp

/-- Witness for C3 at a concrete environment (status 500). -/
theorem C3_fetch_leaderboards_fail_witness :
    run_submit ⟨true, .ok "", ⟨500, .ok .null⟩, ⟨200, .ok .null⟩, ⟨200, .ok .null⟩,
        [], [], []⟩ "f.py" =
      .exited [.httpGet (BASE_URL ++ "/leaderboards"),
               .print "Failed to fetch leaderboards"] 1 ∧
    httpEvents [.httpGet (BASE_URL ++ "/leaderboards"),
                .print "Failed to fetch leaderboards"] =
      [.httpGet (BASE_URL ++ "/leaderboards")] :=
  C3_fetch_leaderboards_fail (.ok "") 500 (.ok .null) ⟨200, .ok .null⟩ ⟨200, .ok .null⟩
    [] [] [] "f.py" (by decide)


theorem mapM_getname_error (x : Json) (e : String) :
    ∀ (xs : List Json) (acc : List Json), x ∈ xs → pyGetItem x "name" = .error e →
    ∃ m, List.mapM.loop (fun y => pyGetItem y "name") xs acc = Except.error m := by
  intro xs
  induction xs with
  | nil => intro acc h; cases h
  | cons y ys ih =>
    intro acc hx he
    rw [List.mapM.loop]
    cases hy : pyGetItem y "name" with
    | error m =>
      exact ⟨m, rfl⟩
    | ok u =>
      rcases List.mem_cons.mp hx with rfl | hmem
      · rw [hy] at he
        cases he
      · obtain ⟨m, hm⟩ := ih (u :: acc) hmem he
        exact ⟨m, hm⟩

/-- C6: the GPU-fetch GET uses the leaderboard name in its original case
exactly as returned by the server, and the runner exactly as in the fixed
list; only the final submission POST uses the lower-cased leaderboard,
runner, and GPU. -/
theorem C6_gpu_fetch_original_case
    (names gpuNames : List String) (fdStr : String)
    (ss : Nat) (sb : Except String Json) (lbIn rIn gIn : List String)
    (vi vr vk : Int) (fp : String) (lbName gpuName : String)
    (hlb : promptAsk (rangeChoices names.length) lbIn = some vi)
    (hr : promptAsk ["1", "2"] rIn = some vr)
    (hname : names[(vi - 1).toNat]? = some lbName)
    (hg : promptAsk (rangeChoices gpuNames.length) gIn = some vk)
    (hgpu : gpuNames[(vk - 1).toNat]? = some gpuName) :
    ∃ tr code, run_submit ⟨true, .ok fdStr,
        ⟨200, .ok (Json.arr (names.map (fun nm => Json.obj [("name", Json.str nm)])))⟩,
        ⟨200, .ok (Json.arr (gpuNames.map Json.str))⟩,
        ⟨ss, sb⟩, lbIn, rIn, gIn⟩ fp = .exited tr code ∧
      getEvents tr = [.httpGet (BASE_URL ++ "/leaderboards"),
        .httpGet (BASE_URL ++ "/" ++ lbName ++ "/"
          ++ (if vr = 1 then "modal" else "github") ++ "/gpus")] ∧
      postEvents tr = [.httpPost (BASE_URL ++ "/" ++ strLower lbName ++ "/"
          ++ strLower (if vr = 1 then "modal" else "github") ++ "/" ++ strLower gpuName)
        (basename fp) (univNewlines fdStr)] := by
  rw [run_submit, submit_body_menu names gpuNames (.ok fdStr) ss sb lbIn rIn gIn
    vi vr vk fp lbName gpuName hlb hr hname hg hgpu]
  by_cases hss : ss = 200
  · subst hss
    cases sb with
    | ok j =>
      rw [submit_solution_200_ok]
      simp only [bind_ok, withTrace_withTrace, withTrace_ok, reportResult, emits]
      refine ⟨_, _, rfl, ?_, ?_⟩ <;> simp [menuTrace]
    | error m =>
      rw [submit_solution_200_badjson]
      simp only [bind_exc, withTrace_withTrace, withTrace_exc]
      refine ⟨_, _, rfl, ?_, ?_⟩ <;> simp [menuTrace]
  · rw [submit_solution_non200 _ _ _ _ _ _ _ _ hss _ _ _ _]
    simp only [bind_ok, withTrace_withTrace, withTrace_ok, reportResult, emit]
    refine ⟨_, _, rfl, ?_, ?_⟩ <;> simp [menuTrace]

/-- Witness for C6: one leaderboard MixedCase, one GPU; the GPU fetch GET
keeps the original case while the POST is lower-cased. -/
theorem C6_gpu_fetch_original_case_witness :
    ∃ tr code, run_submit ⟨true, .ok "x",
        ⟨200, .ok (Json.arr (["MixedCase"].map (fun nm => Json.obj [("name", Json.str nm)])))⟩,
        ⟨200, .ok (Json.arr (["H100"].map Json.str))⟩,
        ⟨200, .ok Json.null⟩, ["1"], ["1"], ["1"]⟩ "sol.py" = .exited tr code ∧
      getEvents tr = [.httpGet (BASE_URL ++ "/leaderboards"),
        .httpGet (BASE_URL ++ "/" ++ "MixedCase" ++ "/"
          ++ (if (1 : Int) = 1 then "modal" else "github") ++ "/gpus")] ∧
      postEvents tr = [.httpPost (BASE_URL ++ "/" ++ strLower "MixedCase" ++ "/"
          ++ strLower (if (1 : Int) = 1 then "modal" else "github") ++ "/" ++ strLower "H100")
        (basename "sol.py") (univNewlines "x")] :=
  C6_gpu_fetch_original_case ["MixedCase"] ["H100"] "x" 200 (.ok Json.null)
    ["1"] ["1"] ["1"] 1 1 1 "sol.py" "MixedCase" "H100"
    (by show promptAsk (rangeChoices 1) ["1"] = some 1
        rw [rangeChoices_one]; decide)
    (by decide)
    (by decide)
    (by show promptAsk (rangeChoices 1) ["1"] = some 1
        rw [rangeChoices_one]; decide)
    (by decide)

/-- C1 is corrected: the request path is indeed the lower-cased
concatenation and the multipart field carries the base filename, but the
content is the file text after the universal-newline translation performed
by the text-mode read, not the exact byte content.  This theorem proves the
amended statement. -/
theorem C1_submit_request_amended
    (names gpuNames : List String) (fdStr : String)
    (ss : Nat) (sb : Except String Json) (lbIn rIn gIn : List String)
    (vi vr vk : Int) (fp : String) (lbName gpuName : String)
    (hlb : promptAsk (rangeChoices names.length) lbIn = some vi)
    (hr : promptAsk ["1", "2"] rIn = some vr)
    (hname : names[(vi - 1).toNat]? = some lbName)
    (hg : promptAsk (rangeChoices gpuNames.length) gIn = some vk)
    (hgpu : gpuNames[(vk - 1).toNat]? = some gpuName) :
    ∃ tr code, run_submit ⟨true, .ok fdStr,
        ⟨200, .ok (Json.arr (names.map (fun nm => Json.obj [("name", Json.str nm)])))⟩,
        ⟨200, .ok (Json.arr (gpuNames.map Json.str))⟩,
        ⟨ss, sb⟩, lbIn, rIn, gIn⟩ fp = .exited tr code ∧
      postEvents tr = [.httpPost (BASE_URL ++ "/" ++ strLower lbName ++ "/"
          ++ strLower (if vr = 1 then "modal" else "github") ++ "/" ++ strLower gpuName)
        (basename fp) (univNewlines fdStr)] := by
  rw [run_submit, submit_body_menu names gpuNames (.ok fdStr) ss sb lbIn rIn gIn
    vi vr vk fp lbName gpuName hlb hr hname hg hgpu]
  by_cases hss : ss = 200
  · subst hss
    cases sb with
    | ok j =>
      rw [submit_solution_200_ok]
      simp only [bind_ok, withTrace_withTrace, withTrace_ok, reportResult, emits]
      refine ⟨_, _, rfl, ?_⟩
      simp [menuTrace]
    | error m =>
      rw [submit_solution_200_badjson]
      simp only [bind_exc, withTrace_withTrace, withTrace_exc]
      refine ⟨_, _, rfl, ?_⟩
      simp [menuTrace]
  · rw [submit_solution_non200 _ _ _ _ _ _ _ _ hss _ _ _ _]
    simp only [bind_ok, withTrace_withTrace, withTrace_ok, reportResult, emit]
    refine ⟨_, _, rfl, ?_⟩
    simp [menuTrace]

/-- Witness for C1 (amended) at a concrete environment. -/
theorem C1_submit_request_amended_witness :
    ∃ tr code, run_submit ⟨true, .ok "print(1)\n",
        ⟨200, .ok (Json.arr (["Conv2D"].map (fun nm => Json.obj [("name", Json.str nm)])))⟩,
        ⟨200, .ok (Json.arr (["H100"].map Json.str))⟩,
        ⟨200, .ok Json.null⟩, ["1"], ["1"], ["1"]⟩ "dir/sol.py" = .exited tr code ∧
      postEvents tr = [.httpPost (BASE_URL ++ "/" ++ strLower "Conv2D" ++ "/"
          ++ strLower (if (1 : Int) = 1 then "modal" else "github") ++ "/" ++ strLower "H100")
        (basename "dir/sol.py") (univNewlines "print(1)\n")] :=
  C1_submit_request_amended ["Conv2D"] ["H100"] "print(1)\n" 200 (.ok Json.null)
    ["1"] ["1"] ["1"] 1 1 1 "dir/sol.py" "Conv2D" "H100"
    (by show promptAsk (rangeChoices 1) ["1"] = some 1
        rw [rangeChoices_one]; decide)
    (by decide)
    (by decide)
    (by show promptAsk (rangeChoices 1) ["1"] = some 1
        rw [rangeChoices_one]; decide)
    (by decide)

/-- Counterexample to C1 as stated: for the file content "a CR LF b" the
POST carries "a LF b" — the text-mode read translates the CR LF sequence,
so the uploaded bytes differ from the exact byte content of the file. -/
theorem C1_counterexample :
    runPosts (run_submit ⟨true, .ok "a\r\nb",
        ⟨200, .ok (Json.arr [Json.obj [("name", Json.str "LB")]])⟩,
        ⟨200, .ok (Json.arr [Json.str "G1"])⟩,
        ⟨200, .ok (Json.num 7)⟩, ["1"], ["1"], ["1"]⟩ "dir/sol.py") =
      [.httpPost (BASE_URL ++ "/lb/modal/g1") "sol.py" "a\nb"] ∧
    "a\nb" ≠ "a\r\nb" := by
  constructor
  · rw [show (Json.arr [Json.obj [("name", Json.str "LB")]]) =
        (Json.arr ((["LB"] : List String).map (fun nm => Json.obj [("name", Json.str nm)])))
      from rfl]
    rw [show (Json.arr [Json.str "G1"]) =
        (Json.arr ((["G1"] : List String).map Json.str)) from rfl]
    rw [run_submit, submit_body_menu ["LB"] ["G1"] (.ok "a\r\nb") 200 (.ok (Json.num 7))
      ["1"] ["1"] ["1"] 1 1 1 "dir/sol.py" "LB" "G1"
      (by show promptAsk (rangeChoices 1) ["1"] = some 1
          rw [rangeChoices_one]; decide)
      (by decide)
      (by decide)
      (by show promptAsk (rangeChoices 1) ["1"] = some 1
          rw [rangeChoices_one]; decide)
      (by decide)]
    rw [submit_solution_200_ok]
    simp only [bind_ok, withTrace_withTrace, withTrace_ok, reportResult, emits]
    show postEvents _ = _
    simp [menuTrace]
    decide
  · decide

/-- C9: the file is read before the HTTP client is created in
submit_solution; if the read raises (for instance because the file vanished
after the initial existence check), no POST is issued and the exception
reaches the top-level handler, which prints it and exits nonzero. -/
theorem C9_read_failure_no_post
    (names gpuNames : List String) (m : String)
    (ss : Nat) (sb : Except String Json) (lbIn rIn gIn : List String)
    (vi vr vk : Int) (fp : String) (lbName gpuName : String)
    (hlb : promptAsk (rangeChoices names.length) lbIn = some vi)
    (hr : promptAsk ["1", "2"] rIn = some vr)
    (hname : names[(vi - 1).toNat]? = some lbName)
    (hg : promptAsk (rangeChoices gpuNames.length) gIn = some vk)
    (hgpu : gpuNames[(vk - 1).toNat]? = some gpuName) :
    run_submit ⟨true, .error m,
        ⟨200, .ok (Json.arr (names.map (fun nm => Json.obj [("name", Json.str nm)])))⟩,
        ⟨200, .ok (Json.arr (gpuNames.map Json.str))⟩,
        ⟨ss, sb⟩, lbIn, rIn, gIn⟩ fp =
      .exited (menuTrace names gpuNames vi vr vk lbName ++ [.print ("Error: " ++ m)]) 1 ∧
    postEvents (menuTrace names gpuNames vi vr vk lbName ++ [.print ("Error: " ++ m)]) = [] := by
  constructor
  · rw [run_submit, submit_body_menu names gpuNames (.error m) ss sb lbIn rIn gIn
      vi vr vk fp lbName gpuName hlb hr hname hg hgpu]
    rw [submit_solution_read_fail]
    simp only [bind_exc, withTrace_exc, List.append_nil]
  · simp [menuTrace]

/-- Witness for C9 at a concrete environment. -/
theorem C9_read_failure_no_post_witness :
    run_submit ⟨true, .error "[Errno 2] No such file or directory",
        ⟨200, .ok (Json.arr (["LB"].map (fun nm => Json.obj [("name", Json.str nm)])))⟩,
        ⟨200, .ok (Json.arr (["G1"].map Json.str))⟩,
        ⟨200, .ok Json.null⟩, ["1"], ["1"], ["1"]⟩ "sol.py" =
      .exited (menuTrace ["LB"] ["G1"] 1 1 1 "LB"
        ++ [.print ("Error: " ++ "[Errno 2] No such file or directory")]) 1 ∧
    postEvents (menuTrace ["LB"] ["G1"] 1 1 1 "LB"
        ++ [.print ("Error: " ++ "[Errno 2] No such file or directory")]) = [] :=
  C9_read_failure_no_post ["LB"] ["G1"] "[Errno 2] No such file or directory"
    200 (.ok Json.null) ["1"] ["1"] ["1"] 1 1 1 "sol.py" "LB" "G1"
    (by show promptAsk (rangeChoices 1) ["1"] = some 1
        rw [rangeChoices_one]; decide)
    (by decide)
    (by decide)
    (by show promptAsk (rangeChoices 1) ["1"] = some 1
        rw [rangeChoices_one]; decide)
    (by decide)

/-- C10: the name extraction maps x["name"] over every element before any
menu is displayed, so if some element lacks a "name" field the process
prints the error and exits nonzero with a trace containing only the
leaderboards GET and the error print: no menu, no prompt, no GPU fetch, no
submission. -/
theorem C10_missing_name_field
    (fdv : Except String String) (xs : List Json) (g sbr : HttpResp)
    (i1 i2 i3 : List String) (fp : String) (x : Json) (e : String)
    (hx : x ∈ xs) (he : pyGetItem x "name" = .error e) :
    ∃ m, run_submit ⟨true, fdv, ⟨200, .ok (Json.arr xs)⟩, g, sbr, i1, i2, i3⟩ fp =
      .exited [.httpGet (BASE_URL ++ "/leaderboards"), .print ("Error: " ++ m)] 1 := by
  obtain ⟨m, hm⟩ := mapM_getname_error x e xs [] hx he
  refine ⟨m, ?_⟩
  rw [run_submit]
  simp [submit_body, fetch_leaderboards, emit, sysExit, liftExc, pyIter, hm]

/-- Witness for C10: second element lacks the name key. -/
theorem C10_missing_name_field_witness :
    ∃ m, run_submit ⟨true, .ok "", ⟨200, .ok (Json.arr
        [Json.obj [("name", Json.str "A")], Json.obj [("other", Json.num 1)]])⟩,
        ⟨200, .ok Json.null⟩, ⟨200, .ok Json.null⟩, [], [], []⟩ "f.py" =
      .exited [.httpGet (BASE_URL ++ "/leaderboards"), .print ("Error: " ++ m)] 1 :=
  C10_missing_name_field (.ok "")
    [Json.obj [("name", Json.str "A")], Json.obj [("other", Json.num 1)]]
    ⟨200, .ok Json.null⟩ ⟨200, .ok Json.null⟩ [] [] [] "f.py"
    (Json.obj [("other", Json.num 1)]) "\x27name\x27"
    (List.mem_cons_of_mem _ (List.mem_cons_self _ _)) rfl

/-- C7: every exception that reaches the end of the try block (anything
other than the explicit non-200 prints and sys.exit calls, which raise
SystemExit and bypass "except Exception") is caught by the single
top-level handler, which prints its message and exits nonzero; in
particular a malformed leaderboards JSON body and a non-iterable
leaderboards body both end with exit status 1 and the printed message. -/
theorem C7_top_level_handler :
    (∀ (env : Env) (fp : String) (tr : List Event) (m : String),
        submit_body env fp = .exc tr m →
        run_submit env fp = .exited (tr ++ [.print ("Error: " ++ m)]) 1) ∧
    (∀ (fdv : Except String String) (m : String) (g sbr : HttpResp)
        (i1 i2 i3 : List String) (fp : String),
        run_submit ⟨true, fdv, ⟨200, .error m⟩, g, sbr, i1, i2, i3⟩ fp =
          .exited [.httpGet (BASE_URL ++ "/leaderboards"),
                   .print ("Error: " ++ m)] 1) ∧
    (∀ (fdv : Except String String) (n : Int) (g sbr : HttpResp)
        (i1 i2 i3 : List String) (fp : String),
        run_submit ⟨true, fdv, ⟨200, .ok (Json.num n)⟩, g, sbr, i1, i2, i3⟩ fp =
          .exited [.httpGet (BASE_URL ++ "/leaderboards"),
                   .print ("Error: " ++ "\x27int\x27 object is not iterable")] 1) := by
  refine ⟨?_, ?_, ?_⟩
  · intro env fp tr m h
    rw [run_submit, h]
  · intro fdv m g sbr i1 i2 i3 fp
    rw [run_submit]
    simp [submit_body, fetch_leaderboards, emit, sysExit, liftExc]
  · intro fdv n g sbr i1 i2 i3 fp
    rw [run_submit]
    simp [submit_body, fetch_leaderboards, emit, sysExit, liftExc, pyIter, pyTypeName]

/-- Witness for C7: a malformed leaderboards response body. -/
theorem C7_top_level_handler_witness :
    run_submit ⟨true, .ok "", ⟨200, .error "Expecting value: line 1 column 1 (char 0)"⟩,
        ⟨200, .ok Json.null⟩, ⟨200, .ok Json.null⟩, [], [], []⟩ "f.py" =
      .exited [.httpGet (BASE_URL ++ "/leaderboards"),
               .print ("Error: " ++ "Expecting value: line 1 column 1 (char 0)")] 1 :=
  C7_top_level_handler.2.1 (.ok "") "Expecting value: line 1 column 1 (char 0)"
    ⟨200, .ok Json.null⟩ ⟨200, .ok Json.null⟩ [] [] [] "f.py"


theorem skipWs_nil : skipWs [] = [] := rfl

theorem skipWs_cons_ws {c : Char} (h : isWs c = true) (cs : List Char) :
    skipWs (c :: cs) = skipWs cs := by
  rw [skipWs, if_pos h]

theorem skipWs_cons_not_ws {c : Char} (h : isWs c = false) (cs : List Char) :
    skipWs (c :: cs) = c :: cs := by
  rw [skipWs, if_neg (by simp [h])]

theorem skipWs_replicate_space (n : Nat) (cs : List Char) :
    skipWs (List.replicate n ' ' ++ cs) = skipWs cs := by
  induction n with
  | zero => rfl
  | succ k ih =>
    rw [List.replicate_succ, List.cons_append, skipWs_cons_ws (by decide)]
    exact ih

theorem skipWs_indL (k : Nat) (cs : List Char) :
    skipWs (indL k ++ cs) = skipWs cs :=
  skipWs_replicate_space (2 * k) cs

theorem skipWs_newline_indL (k : Nat) (cs : List Char) :
    skipWs ('\n' :: (indL k ++ cs)) = skipWs cs := by
  rw [skipWs_cons_ws (by decide), skipWs_indL]

theorem hexVal_hexDigit {d : Nat} (h : d < 16) : hexVal (hexDigit d) = some d := by
  have hall : ∀ e, e < 16 → hexVal (hexDigit e) = some e := by decide
  exact hall d h

theorem readHex4_hex4 {n : Nat} (h : n < 65536) (rest : List Char) :
    readHex4 (hex4 n ++ rest) = some (n, rest) := by
  rw [hex4]
  show readHex4 (_ :: _ :: _ :: _ :: rest) = _
  rw [readHex4]
  rw [hexVal_hexDigit (by omega), hexVal_hexDigit (by omega),
      hexVal_hexDigit (by omega), hexVal_hexDigit (by omega)]
  show some (n / 4096 % 16 * 4096 + n / 256 % 16 * 256 + n / 16 % 16 * 16 + n % 16, rest) = _
  congr 2
  omega

theorem char_valid_toNat (c : Char) :
    c.toNat < 55296 ∨ (57343 < c.toNat ∧ c.toNat < 1114112) :=
  c.valid

theorem parseStr_quote (fuel : Nat) (z : List Char) :
    parseStr (fuel + 1) ('"' :: z) = some ([], z) := by
  rw [parseStr.eq_def]
  simp only []
  simp

theorem parseStr_plain (fuel : Nat) (c : Char) (h1 : c ≠ '"') (h2 : c ≠ '\\')
    (h3 : ¬ c.toNat < 32) (z : List Char) :
    parseStr (fuel + 1) (c :: z) = (parseStr fuel z).map (fun pr => (c :: pr.1, pr.2)) := by
  rw [parseStr.eq_def]
  simp [h1, h2, h3]

theorem parseStr_short (fuel : Nat) (e d : Char) (he : escShort e = some d)
    (he2 : e ≠ 'u') (z : List Char) :
    parseStr (fuel + 1) ('\\' :: e :: z) =
      (parseStr fuel z).map (fun pr => (d :: pr.1, pr.2)) := by
  rw [parseStr.eq_def]
  simp [he, he2]

theorem parseStr_u_bmp (fuel : Nat) (n : Nat) (hn : n < 65536)
    (h1 : ¬ (55296 ≤ n ∧ n ≤ 56319)) (h2 : ¬ (56320 ≤ n ∧ n ≤ 57343)) (z : List Char) :
    parseStr (fuel + 1) ('\\' :: 'u' :: (hex4 n ++ z)) =
      (parseStr fuel z).map (fun pr => (Char.ofNat n :: pr.1, pr.2)) := by
  rw [parseStr.eq_def]
  simp [readHex4_hex4 hn, h1, h2]

theorem parseStr_u_pair (fuel : Nat) (hi lo : Nat)
    (hhi : 55296 ≤ hi ∧ hi ≤ 56319) (hhi2 : hi < 65536)
    (hlo : 56320 ≤ lo ∧ lo ≤ 57343) (hlo2 : lo < 65536) (z : List Char) :
    parseStr (fuel + 1) ('\\' :: 'u' :: (hex4 hi ++ ('\\' :: 'u' :: (hex4 lo ++ z)))) =
      (parseStr fuel z).map
        (fun pr => (Char.ofNat (65536 + (hi - 55296) * 1024 + (lo - 56320)) :: pr.1, pr.2)) := by
  rw [parseStr.eq_def]
  simp [readHex4_hex4 hhi2, readHex4_hex4 hlo2, hhi.1, hhi.2, hlo.1, hlo.2]

theorem parseStr_escape (cs : List Char) : ∀ (rest : List Char) (fuel : Nat),
    cs.length < fuel → parseStr fuel (escStr cs ++ '"' :: rest) = some (cs, rest) := by
  induction cs with
  | nil =>
    intro rest fuel hf
    rcases fuel with _ | fuel
    · omega
    · show parseStr (fuel + 1) ('"' :: rest) = _
      exact parseStr_quote fuel rest
  | cons c cs ih =>
    intro rest fuel hf
    rcases fuel with _ | fuel
    · omega
    · have hlen : cs.length < fuel := by
        simp only [List.length_cons] at hf
        omega
      have hrec := ih rest fuel hlen
      show parseStr (fuel + 1) ((escChar c ++ escStr cs) ++ '"' :: rest) = some (c :: cs, rest)
      have hv := char_valid_toNat c
      by_cases h1 : c = '"'
      · subst h1
        rw [show escChar '"' = ['\\', '"'] from by decide]
        simp only [List.cons_append, List.nil_append]
        rw [parseStr_short fuel '"' '"' (by decide) (by decide), hrec]
        rfl
      · by_cases h2 : c = '\\'
        · subst h2
          rw [show escChar '\\' = ['\\', '\\'] from by decide]
          simp only [List.cons_append, List.nil_append]
          rw [parseStr_short fuel '\\' '\\' (by decide) (by decide), hrec]
          rfl
        · by_cases h3 : c.toNat = 8
          · have hc : c = Char.ofNat 8 := by
              rw [char_eq_iff_toNat, h3, char_toNat_ofNat_small 8 (by omega)]
            subst hc
            rw [show escChar (Char.ofNat 8) = ['\\', 'b'] from by decide]
            simp only [List.cons_append, List.nil_append]
            rw [parseStr_short fuel 'b' (Char.ofNat 8) (by decide) (by decide), hrec]
            rfl
          · by_cases h4 : c.toNat = 9
            · have hc : c = Char.ofNat 9 := by
                rw [char_eq_iff_toNat, h4, char_toNat_ofNat_small 9 (by omega)]
              subst hc
              rw [show escChar (Char.ofNat 9) = ['\\', 't'] from by decide]
              simp only [List.cons_append, List.nil_append]
              rw [parseStr_short fuel 't' (Char.ofNat 9) (by decide) (by decide), hrec]
              rfl
            · by_cases h5 : c.toNat = 10
              · have hc : c = Char.ofNat 10 := by
                  rw [char_eq_iff_toNat, h5, char_toNat_ofNat_small 10 (by omega)]
                subst hc
                rw [show escChar (Char.ofNat 10) = ['\\', 'n'] from by decide]
                simp only [List.cons_append, List.nil_append]
                rw [parseStr_short fuel 'n' (Char.ofNat 10) (by decide) (by decide), hrec]
                rfl
              · by_cases h6 : c.toNat = 12
                · have hc : c = Char.ofNat 12 := by
                    rw [char_eq_iff_toNat, h6, char_toNat_ofNat_small 12 (by omega)]
                  subst hc
                  rw [show escChar (Char.ofNat 12) = ['\\', 'f'] from by decide]
                  simp only [List.cons_append, List.nil_append]
                  rw [parseStr_short fuel 'f' (Char.ofNat 12) (by decide) (by decide), hrec]
                  rfl
                · by_cases h7 : c.toNat = 13
                  · have hc : c = Char.ofNat 13 := by
                      rw [char_eq_iff_toNat, h7, char_toNat_ofNat_small 13 (by omega)]
                    subst hc
                    rw [show escChar (Char.ofNat 13) = ['\\', 'r'] from by decide]
                    simp only [List.cons_append, List.nil_append]
                    rw [parseStr_short fuel 'r' (Char.ofNat 13) (by decide) (by decide), hrec]
                    rfl
                  · by_cases h8 : 32 ≤ c.toNat ∧ c.toNat ≤ 126
                    · have he : escChar c = [c] := by
                        rw [escChar]
                        rw [if_neg h1, if_neg h2, if_neg h3, if_neg h4, if_neg h5,
                          if_neg h6, if_neg h7, if_pos h8]
                      rw [he]
                      simp only [List.cons_append, List.nil_append]
                      rw [parseStr_plain fuel c h1 h2 (by omega), hrec]
                      rfl
                    · by_cases h9 : c.toNat < 65536
                      · have he : escChar c = '\\' :: 'u' :: hex4 c.toNat := by
                          rw [escChar]
                          rw [if_neg h1, if_neg h2, if_neg h3, if_neg h4, if_neg h5,
                            if_neg h6, if_neg h7, if_neg h8, if_pos h9]
                        rw [he]
                        simp only [List.cons_append, List.nil_append, List.append_assoc]
                        rw [parseStr_u_bmp fuel c.toNat h9 (by omega) (by omega), hrec]
                        simp
                      · have he : escChar c =
                            ('\\' :: 'u' :: hex4 (55296 + (c.toNat - 65536) / 1024))
                              ++ ('\\' :: 'u' :: hex4 (56320 + (c.toNat - 65536) % 1024)) := by
                          rw [escChar]
                          rw [if_neg h1, if_neg h2, if_neg h3, if_neg h4, if_neg h5,
                            if_neg h6, if_neg h7, if_neg h8, if_neg h9]
                        have hm := Nat.mod_lt (c.toNat - 65536) (show 0 < 1024 from by omega)
                        have hd : (c.toNat - 65536) / 1024 ≤ 1023 := by
                          have : c.toNat - 65536 ≤ 1048575 := by omega
                          omega
                        rw [he]
                        simp only [List.cons_append, List.nil_append, List.append_assoc]
                        rw [parseStr_u_pair fuel _ _ ⟨by omega, by omega⟩ (by omega)
                          ⟨by omega, by omega⟩ (by omega), hrec]
                        have harith : 65536 + (55296 + (c.toNat - 65536) / 1024 - 55296) * 1024
                            + (56320 + (c.toNat - 65536) % 1024 - 56320) = c.toNat := by
                          have := Nat.div_add_mod (c.toNat - 65536) 1024
                          omega
                        simp [harith]
                        have harith2 : 65536 + (c.toNat - 65536) / 1024 * 1024
                            + (c.toNat - 65536) % 1024 = c.toNat := by
                          have := Nat.div_add_mod (c.toNat - 65536) 1024
                          omega
                        rw [harith2, Char.ofNat_toNat]



theorem escChar_length_pos (c : Char) : 1 ≤ (escChar c).length := by
  rw [escChar]
  repeat' split
  all_goals simp [hex4]

theorem escStr_length_ge (cs : List Char) : cs.length ≤ (escStr cs).length := by
  induction cs with
  | nil => simp [escStr]
  | cons c cs ih =>
    have h1 := escChar_length_pos c
    simp only [escStr, List.map_cons, List.flatten_cons, List.length_append,
      List.length_cons] at ih ⊢
    omega

theorem span_loop_digits : ∀ (ds rest acc : List Char), ds.all isDig = true → restSafe rest →
    List.span.loop isDig (ds ++ rest) acc = (acc.reverse ++ ds, rest) := by
  intro ds
  induction ds with
  | nil =>
    intro rest acc hall hr
    cases rest with
    | nil => simp [List.span.loop]
    | cons c r =>
      have hc : isDig c = false := hr
      simp [List.span.loop, hc]
  | cons d ds ih =>
    intro rest acc hall hr
    simp only [List.all_cons, Bool.and_eq_true] at hall
    simp only [List.cons_append, List.span.loop, hall.1]
    show List.span.loop isDig (ds ++ rest) (d :: acc) = _
    rw [ih rest (d :: acc) hall.2 hr]
    simp

theorem span_digits (ds rest : List Char) (hall : ds.all isDig = true) (hr : restSafe rest) :
    (ds ++ rest).span isDig = (ds, rest) := by
  rw [List.span, span_loop_digits ds rest [] hall hr]
  simp

theorem natDigits_head (n : Nat) :
    ∃ c cs, natDigits n = c :: cs ∧ isDig c = true := by
  rcases hshape : natDigits n with _ | ⟨c, cs⟩
  · exact absurd hshape (natDigits_ne_nil n)
  · refine ⟨c, cs, rfl, ?_⟩
    have := natDigits_all_dig n
    rw [hshape] at this
    exact this c (by simp)

theorem parseNum_pyIntStrL (i : Int) (rest : List Char) (hr : restSafe rest) :
    parseNum (pyIntStrL i ++ rest) = some (i, rest) := by
  by_cases h : i < 0
  · rw [pyIntStrL, if_pos h]
    show parseNum (Char.ofNat 45 :: natDigits (-i).toNat ++ rest) = some (i, rest)
    rw [parseNum]
    rw [if_pos (show (Char.ofNat 45 :: natDigits (-i).toNat ++ rest).head? = some (Char.ofNat 45) from rfl)]
    show (match (natDigits (-i).toNat ++ rest).span isDig with
      | (ds, r) => if ds = [] then none else some (-(digitsVal ds : Int), r)) = _
    rw [span_digits _ rest (List.all_eq_true.mpr (natDigits_all_dig _)) hr]
    simp only []
    rw [if_neg (natDigits_ne_nil _)]
    rw [digitsVal_natDigits]
    simp only [Option.some.injEq, Prod.mk.injEq]
    refine ⟨by omega, trivial⟩
  · rw [pyIntStrL, if_neg h]
    obtain ⟨c, cs, hshape, hdig⟩ := natDigits_head i.toNat
    rw [parseNum]
    rw [if_neg (by
      rw [hshape]
      simp only [List.cons_append, List.head?_cons, Option.some.injEq]
      intro he
      rw [he] at hdig
      exact absurd hdig (by decide))]
    show (match (natDigits i.toNat ++ rest).span isDig with
      | (ds, r) => if ds = [] then none else some ((digitsVal ds : Int), r)) = _
    rw [span_digits _ rest (List.all_eq_true.mpr (natDigits_all_dig _)) hr]
    simp only []
    rw [if_neg (natDigits_ne_nil _)]
    rw [digitsVal_natDigits]
    simp only [Option.some.injEq, Prod.mk.injEq]
    refine ⟨by omega, trivial⟩


theorem isDig_facts {c : Char} (h : isDig c = true) :
    48 ≤ c.toNat ∧ c.toNat ≤ 57 := by
  simp [isDig] at h
  exact h

theorem char_ne_of_toNat_ne {c d : Char} (h : c.toNat ≠ d.toNat) : c ≠ d := by
  intro he
  exact h (by rw [he])

theorem dump_head (lvl : Nat) (v : Json) :
    ∃ c cs2, dumpJsonL lvl v = c :: cs2 ∧ isWs c = false ∧ c ≠ ']' := by
  cases v with
  | null => exact ⟨'n', _, rfl, by decide, by decide⟩
  | bool b =>
    cases b with
    | true => exact ⟨'t', _, rfl, by decide, by decide⟩
    | false => exact ⟨'f', _, rfl, by decide, by decide⟩
  | num n =>
    show ∃ c cs2, pyIntStrL n = c :: cs2 ∧ _
    by_cases h : n < 0
    · rw [pyIntStrL, if_pos h]
      exact ⟨Char.ofNat 45, _, rfl, by decide, by decide⟩
    · rw [pyIntStrL, if_neg h]
      obtain ⟨c, cs, hshape, hdig⟩ := natDigits_head n.toNat
      have hf := isDig_facts hdig
      refine ⟨c, cs, hshape, ?_, ?_⟩
      · simp [isWs]
        omega
      · apply char_ne_of_toNat_ne
        intro he
        rw [show (']').toNat = 93 from by decide] at he
        omega
  | str s => exact ⟨'"', _, rfl, by decide, by decide⟩
  | arr xs =>
    cases xs with
    | nil => exact ⟨'[', _, rfl, by decide, by decide⟩
    | cons x xs => exact ⟨'[', _, rfl, by decide, by decide⟩
  | obj kvs =>
    cases kvs with
    | nil => exact ⟨'\x7b', _, rfl, by decide, by decide⟩
    | cons kv kvs => exact ⟨'\x7b', _, rfl, by decide, by decide⟩

theorem skipWs_dump (lvl : Nat) (v : Json) (rest : List Char) :
    skipWs (dumpJsonL lvl v ++ rest) = dumpJsonL lvl v ++ rest := by
  obtain ⟨c, cs2, he, hws, _⟩ := dump_head lvl v
  rw [he, List.cons_append, skipWs_cons_not_ws hws]


theorem string_eta (s : String) : String.mk s.data = s := rfl

theorem take_head_ne {c d : Char} (h : c ≠ d) (z w : List Char) (n : Nat) :
    (c :: z).take (n + 1) ≠ d :: w := by
  simp only [List.take_succ_cons, ne_eq, List.cons.injEq, not_and]
  intro he
  exact absurd he h

theorem parseValCore_null (fuel : Nat) (rest : List Char) :
    parseValCore (fuel + 1) ('n' :: 'u' :: 'l' :: 'l' :: rest) = some (.null, rest) := by
  rw [parseValCore.eq_def]
  simp only []
  simp

theorem parseValCore_true (fuel : Nat) (rest : List Char) :
    parseValCore (fuel + 1) ('t' :: 'r' :: 'u' :: 'e' :: rest) = some (.bool true, rest) := by
  rw [parseValCore.eq_def]
  simp only []
  simp

theorem parseValCore_false (fuel : Nat) (rest : List Char) :
    parseValCore (fuel + 1) ('f' :: 'a' :: 'l' :: 's' :: 'e' :: rest) =
      some (.bool false, rest) := by
  rw [parseValCore.eq_def]
  simp only []
  simp

theorem parseValCore_str (fuel : Nat) (s : String) (rest : List Char) :
    parseValCore (fuel + 1) (quoteL s ++ rest) = some (.str s, rest) := by
  rw [show quoteL s ++ rest = '"' :: (escStr s.data ++ '"' :: rest) from by
    rw [quoteL]; simp]
  rw [parseValCore.eq_def]
  simp only []
  have hs := parseStr_escape s.data rest ((escStr s.data).length + (rest.length + 1) + 1)
    (by have := escStr_length_ge s.data; omega)
  simp [hs, string_eta]

theorem parseValCore_arr_nil (fuel : Nat) (rest : List Char) :
    parseValCore (fuel + 1) ('[' :: ']' :: rest) = some (.arr [], rest) := by
  rw [parseValCore.eq_def]
  simp only []
  simp only [List.tail_cons]
  rw [show skipWs (']' :: rest) = ']' :: rest from skipWs_cons_not_ws (by decide) rest]
  simp

theorem parseValCore_obj_nil (fuel : Nat) (rest : List Char) :
    parseValCore (fuel + 1) ('\x7b' :: '\x7d' :: rest) = some (.obj [], rest) := by
  rw [parseValCore.eq_def]
  simp only []
  simp only [List.tail_cons]
  rw [show skipWs ('\x7d' :: rest) = '\x7d' :: rest from skipWs_cons_not_ws (by decide) rest]
  simp

theorem parseValCore_num (fuel : Nat) (i : Int) (rest : List Char) (hr : restSafe rest) :
    parseValCore (fuel + 1) (pyIntStrL i ++ rest) = some (.num i, rest) := by
  have hpn := parseNum_pyIntStrL i rest hr
  obtain ⟨c, cs2, hshape, hdig1, hdig2⟩ :
      ∃ c cs2, pyIntStrL i = c :: cs2 ∧ 45 ≤ c.toNat ∧ c.toNat ≤ 57 := by
    by_cases h : i < 0
    · rw [pyIntStrL, if_pos h]
      exact ⟨Char.ofNat 45, _, rfl, by decide, by decide⟩
    · rw [pyIntStrL, if_neg h]
      obtain ⟨c, cs, hs, hd⟩ := natDigits_head i.toNat
      have := isDig_facts hd
      exact ⟨c, cs, hs, by omega, by omega⟩
  rw [hshape] at hpn ⊢
  rw [List.cons_append] at hpn ⊢
  have hne : ∀ d : Char, d.toNat < 45 ∨ 57 < d.toNat → c ≠ d := by
    intro d hd
    apply char_ne_of_toNat_ne
    omega
  rw [parseValCore.eq_def]
  simp only []
  rw [if_neg (take_head_ne (hne 'n' (by decide)) _ _ 3),
    if_neg (take_head_ne (hne 't' (by decide)) _ _ 3),
    if_neg (take_head_ne (hne 'f' (by decide)) _ _ 4)]
  rw [if_neg (by
    simp only [List.head?_cons, ne_eq, Option.some.injEq]
    exact hne '"' (by decide))]
  rw [if_neg (by
    simp only [List.head?_cons, ne_eq, Option.some.injEq]
    exact hne '[' (by decide))]
  rw [if_neg (by
    simp only [List.head?_cons, ne_eq, Option.some.injEq]
    exact hne '\x7b' (by decide))]
  rw [hpn]
  rfl


theorem restSafe_dumpArrL (lvl : Nat) (xs : List Json) (z : List Char) :
    restSafe (dumpArrL lvl xs ++ '\n' :: z) := by
  cases xs with
  | nil =>
    rw [show dumpArrL lvl [] = [] from by rw [dumpArrL]]
    show isDig '\n' = false
    decide
  | cons x xs =>
    rw [show dumpArrL lvl (x :: xs)
        = ',' :: '\n' :: (indL lvl ++ dumpJsonL lvl x ++ dumpArrL lvl xs) from by
      rw [dumpArrL]]
    show isDig ',' = false
    decide

theorem restSafe_dumpObjL (lvl : Nat) (kvs : List (String × Json)) (z : List Char) :
    restSafe (dumpObjL lvl kvs ++ '\n' :: z) := by
  cases kvs with
  | nil =>
    rw [show dumpObjL lvl [] = [] from by rw [dumpObjL]]
    show isDig '\n' = false
    decide
  | cons kv kvs =>
    rw [show dumpObjL lvl (kv :: kvs)
        = ',' :: '\n' :: (indL lvl ++ quoteL kv.1 ++ ':' :: ' ' :: dumpJsonL lvl kv.2
            ++ dumpObjL lvl kvs) from by
      rw [dumpObjL]]
    show isDig ',' = false
    decide

theorem dump_append_head_ne {lvl : Nat} {v : Json} (z : List Char) :
    ¬ (dumpJsonL lvl v ++ z).head? = some ']' := by
  obtain ⟨c, cs2, he, _, hne⟩ := dump_head lvl v
  rw [he, List.cons_append, List.head?_cons]
  simp only [Option.some.injEq]
  exact hne


theorem pfuel_pos (v : Json) : 1 ≤ pfuel v := by
  cases v with
  | null => simp [pfuel]
  | bool b => simp [pfuel]
  | num n => simp [pfuel]
  | str s => simp [pfuel]
  | arr xs => cases xs <;> simp [pfuel] <;> omega
  | obj kvs => cases kvs <;> simp [pfuel] <;> omega

theorem pfuelList_pos (xs : List Json) : 1 ≤ pfuelList xs := by
  cases xs <;> simp [pfuelList] <;> omega

theorem pfuelObj_pos (kvs : List (String × Json)) : 1 ≤ pfuelObj kvs := by
  cases kvs <;> simp [pfuelObj] <;> omega

mutual

theorem parse_dump (v : Json) (lvl : Nat) (rest : List Char) (fuel : Nat)
    (hf : pfuel v ≤ fuel) (hr : restSafe rest) :
    parseValCore fuel (dumpJsonL lvl v ++ rest) = some (v, rest) := by
  rcases fuel with _ | fuel
  · exact absurd hf (by have := pfuel_pos v; omega)
  · cases v with
    | null =>
      rw [show dumpJsonL lvl .null = 'n' :: 'u' :: 'l' :: 'l' :: [] from by rw [dumpJsonL]]
      exact parseValCore_null fuel rest
    | bool b =>
      cases b with
      | true =>
        rw [show dumpJsonL lvl (.bool true) = 't' :: 'r' :: 'u' :: 'e' :: [] from by
          rw [dumpJsonL]]
        exact parseValCore_true fuel rest
      | false =>
        rw [show dumpJsonL lvl (.bool false) = 'f' :: 'a' :: 'l' :: 's' :: 'e' :: [] from by
          rw [dumpJsonL]]
        exact parseValCore_false fuel rest
    | num n =>
      rw [show dumpJsonL lvl (.num n) = pyIntStrL n from by rw [dumpJsonL]]
      exact parseValCore_num fuel n rest hr
    | str s =>
      rw [show dumpJsonL lvl (.str s) = quoteL s from by rw [dumpJsonL]]
      exact parseValCore_str fuel s rest
    | arr xs =>
      cases xs with
      | nil =>
        rw [show dumpJsonL lvl (.arr []) = '[' :: ']' :: [] from by rw [dumpJsonL]]
        exact parseValCore_arr_nil fuel rest
      | cons x xs =>
        rw [show dumpJsonL lvl (.arr (x :: xs))
            = '[' :: '\n' :: (indL (lvl + 1) ++ dumpJsonL (lvl + 1) x
              ++ dumpArrL (lvl + 1) xs ++ '\n' :: (indL lvl ++ [']'])) from by
          rw [dumpJsonL]]
        have hfx : pfuel x ≤ fuel := by
          have : pfuel (.arr (x :: xs)) = 1 + pfuel x + pfuelList xs := by rw [pfuel]
          omega
        have hfxs : pfuelList xs ≤ fuel := by
          have : pfuel (.arr (x :: xs)) = 1 + pfuel x + pfuelList xs := by rw [pfuel]
          omega
        simp only [List.cons_append, List.append_assoc, List.nil_append]
        rw [parseValCore.eq_def]
        simp only []
        rw [if_neg (take_head_ne (by decide) _ _ 3),
          if_neg (take_head_ne (by decide) _ _ 3),
          if_neg (take_head_ne (by decide) _ _ 4),
          if_neg (by simp), if_pos (by simp)]
        simp only [List.tail_cons]
        rw [skipWs_newline_indL, skipWs_dump]
        rw [if_neg (dump_append_head_ne _)]
        rw [parse_dump x (lvl + 1)
          (dumpArrL (lvl + 1) xs ++ '\n' :: (indL lvl ++ (']' :: rest))) fuel hfx
          (restSafe_dumpArrL (lvl + 1) xs (indL lvl ++ (']' :: rest)))]
        simp only []
        rw [parse_dump_elems xs lvl (lvl + 1) rest fuel hfxs hr]
    | obj kvs =>
      cases kvs with
      | nil =>
        rw [show dumpJsonL lvl (.obj []) = '\x7b' :: '\x7d' :: [] from by rw [dumpJsonL]]
        exact parseValCore_obj_nil fuel rest
      | cons kv kvs =>
        rw [show dumpJsonL lvl (.obj (kv :: kvs))
            = '\x7b' :: '\n' :: (indL (lvl + 1) ++ quoteL kv.1 ++ ':' :: ' '
              :: dumpJsonL (lvl + 1) kv.2 ++ dumpObjL (lvl + 1) kvs
              ++ '\n' :: (indL lvl ++ ['\x7d'])) from by
          rw [dumpJsonL]]
        have hfkv : 1 + pfuel kv.2 ≤ fuel := by
          have : pfuel (.obj (kv :: kvs)) = 1 + (1 + pfuel kv.2) + pfuelObj kvs := by
            rw [pfuel]
          omega
        have hfkvs : pfuelObj kvs ≤ fuel := by
          have : pfuel (.obj (kv :: kvs)) = 1 + (1 + pfuel kv.2) + pfuelObj kvs := by
            rw [pfuel]
          omega
        simp only [List.cons_append, List.append_assoc, List.nil_append, quoteL]
        rw [parseValCore.eq_def]
        simp only []
        rw [if_neg (take_head_ne (by decide) _ _ 3),
          if_neg (take_head_ne (by decide) _ _ 3),
          if_neg (take_head_ne (by decide) _ _ 4),
          if_neg (by simp), if_neg (by simp), if_pos (by simp)]
        simp only [List.tail_cons]
        rw [skipWs_newline_indL]
        rw [skipWs_cons_not_ws (by decide)]
        rw [if_neg (by simp), if_pos (by simp)]
        simp only [List.tail_cons]
        rw [parse_dump_member kv (lvl + 1)
          (dumpObjL (lvl + 1) kvs ++ '\n' :: (indL lvl ++ ('\x7d' :: rest))) fuel hfkv
          (restSafe_dumpObjL (lvl + 1) kvs (indL lvl ++ ('\x7d' :: rest)))]
        simp only []
        rw [parse_dump_members kvs lvl (lvl + 1) rest fuel hfkvs hr]
termination_by sizeOf v

theorem parse_dump_member (kv : String × Json) (lvl2 : Nat) (rest5 : List Char)
    (fuel : Nat) (hf : 1 + pfuel kv.2 ≤ fuel) (hr : restSafe rest5) :
    parseMember fuel (escStr kv.1.data ++ '"' :: (':' :: ' '
        :: (dumpJsonL lvl2 kv.2 ++ rest5))) = some (kv, rest5) := by
  rcases fuel with _ | fuel
  · omega
  · rw [parseMember.eq_def]
    simp only []
    have hs := parseStr_escape kv.1.data (':' :: ' ' :: (dumpJsonL lvl2 kv.2 ++ rest5))
      ((escStr kv.1.data ++ '"' :: (':' :: ' '
        :: (dumpJsonL lvl2 kv.2 ++ rest5))).length + 1)
      (by
        have := escStr_length_ge kv.1.data
        simp only [List.length_append, List.length_cons]
        omega)
    rw [hs]
    simp only []
    rw [skipWs_cons_not_ws (by decide)]
    simp only []
    rw [skipWs_cons_ws (by decide), skipWs_dump]
    rw [parse_dump kv.2 lvl2 rest5 fuel (by omega) hr]
termination_by sizeOf kv
decreasing_by
  obtain ⟨a, b⟩ := kv
  simp

theorem parse_dump_elems (xs : List Json) (lvl lvl2 : Nat) (rest : List Char)
    (fuel : Nat) (hf : pfuelList xs ≤ fuel) (hr : restSafe rest) :
    parseElems fuel (dumpArrL lvl2 xs ++ '\n' :: (indL lvl ++ (']' :: rest))) =
      some (xs, rest) := by
  rcases fuel with _ | fuel
  · exact absurd hf (by have := pfuelList_pos xs; omega)
  · cases xs with
    | nil =>
      rw [show dumpArrL lvl2 [] = [] from by rw [dumpArrL]]
      rw [parseElems.eq_def]
      simp only [List.nil_append]
      rw [skipWs_newline_indL, skipWs_cons_not_ws (by decide)]
      rfl
    | cons x xs =>
      rw [show dumpArrL lvl2 (x :: xs)
          = ',' :: '\n' :: (indL lvl2 ++ dumpJsonL lvl2 x ++ dumpArrL lvl2 xs) from by
        rw [dumpArrL]]
      have hfx : pfuel x ≤ fuel := by
        have : pfuelList (x :: xs) = 1 + pfuel x + pfuelList xs := by rw [pfuelList]
        omega
      have hfxs : pfuelList xs ≤ fuel := by
        have : pfuelList (x :: xs) = 1 + pfuel x + pfuelList xs := by rw [pfuelList]
        omega
      simp only [List.cons_append, List.append_assoc]
      rw [parseElems.eq_def]
      simp only []
      rw [skipWs_cons_not_ws (by decide)]
      simp only []
      rw [skipWs_newline_indL, skipWs_dump]
      rw [parse_dump x lvl2
        (dumpArrL lvl2 xs ++ '\n' :: (indL lvl ++ (']' :: rest))) fuel hfx
        (restSafe_dumpArrL lvl2 xs (indL lvl ++ (']' :: rest)))]
      simp only []
      rw [parse_dump_elems xs lvl lvl2 rest fuel hfxs hr]
      rfl
termination_by sizeOf xs

theorem parse_dump_members (kvs : List (String × Json)) (lvl lvl2 : Nat)
    (rest : List Char) (fuel : Nat) (hf : pfuelObj kvs ≤ fuel) (hr : restSafe rest) :
    parseMembers fuel (dumpObjL lvl2 kvs ++ '\n' :: (indL lvl ++ ('\x7d' :: rest))) =
      some (kvs, rest) := by
  rcases fuel with _ | fuel
  · exact absurd hf (by have := pfuelObj_pos kvs; omega)
  · cases kvs with
    | nil =>
      rw [show dumpObjL lvl2 [] = [] from by rw [dumpObjL]]
      rw [parseMembers.eq_def]
      simp only [List.nil_append]
      rw [skipWs_newline_indL, skipWs_cons_not_ws (by decide)]
      rfl
    | cons kv kvs =>
      rw [show dumpObjL lvl2 (kv :: kvs)
          = ',' :: '\n' :: (indL lvl2 ++ quoteL kv.1 ++ ':' :: ' ' :: dumpJsonL lvl2 kv.2
            ++ dumpObjL lvl2 kvs) from by
        rw [dumpObjL]]
      have hfkv : 1 + pfuel kv.2 ≤ fuel := by
        have : pfuelObj (kv :: kvs) = 1 + (1 + pfuel kv.2) + pfuelObj kvs := by
          rw [pfuelObj]
        omega
      have hfkvs : pfuelObj kvs ≤ fuel := by
        have : pfuelObj (kv :: kvs) = 1 + (1 + pfuel kv.2) + pfuelObj kvs := by
          rw [pfuelObj]
        omega
      simp only [List.cons_append, List.append_assoc, List.nil_append, quoteL]
      rw [parseMembers.eq_def]
      simp only []
      rw [skipWs_cons_not_ws (by decide)]
      simp only []
      rw [skipWs_newline_indL]
      rw [skipWs_cons_not_ws (by decide)]
      simp only [List.cons_append, List.append_assoc]
      rw [parse_dump_member kv lvl2
        (dumpObjL lvl2 kvs ++ '\n' :: (indL lvl ++ ('\x7d' :: rest))) fuel hfkv
        (restSafe_dumpObjL lvl2 kvs (indL lvl ++ ('\x7d' :: rest)))]
      simp only []
      rw [parse_dump_members kvs lvl lvl2 rest fuel hfkvs hr]
      rfl
termination_by sizeOf kvs

end


mutual

theorem pfuel_le_len (v : Json) (lvl : Nat) : pfuel v ≤ (dumpJsonL lvl v).length := by
  cases v with
  | null =>
    rw [show dumpJsonL lvl .null = 'n' :: 'u' :: 'l' :: 'l' :: [] from by rw [dumpJsonL]]
    simp [pfuel]
  | bool b =>
    cases b with
    | true =>
      rw [show dumpJsonL lvl (.bool true) = 't' :: 'r' :: 'u' :: 'e' :: [] from by
        rw [dumpJsonL]]
      simp [pfuel]
    | false =>
      rw [show dumpJsonL lvl (.bool false) = 'f' :: 'a' :: 'l' :: 's' :: 'e' :: [] from by
        rw [dumpJsonL]]
      simp [pfuel]
  | num n =>
    rw [show dumpJsonL lvl (.num n) = pyIntStrL n from by rw [dumpJsonL]]
    have : pyIntStrL n ≠ [] := by
      rw [pyIntStrL]
      by_cases h : n < 0
      · rw [if_pos h]; simp
      · rw [if_neg h]; exact natDigits_ne_nil _
    have hlen : 1 ≤ (pyIntStrL n).length := by
      cases he : pyIntStrL n with
      | nil => exact absurd he this
      | cons c cs => simp
    rw [show pfuel (.num n) = 1 from by rw [pfuel]]
    omega
  | str s =>
    rw [show dumpJsonL lvl (.str s) = quoteL s from by rw [dumpJsonL]]
    rw [show pfuel (.str s) = 1 from by rw [pfuel]]
    rw [quoteL]
    simp
  | arr xs =>
    cases xs with
    | nil =>
      rw [show dumpJsonL lvl (.arr []) = '[' :: ']' :: [] from by rw [dumpJsonL]]
      simp [pfuel]
    | cons x xs =>
      rw [show dumpJsonL lvl (.arr (x :: xs))
          = '[' :: '\n' :: (indL (lvl + 1) ++ dumpJsonL (lvl + 1) x
            ++ dumpArrL (lvl + 1) xs ++ '\n' :: (indL lvl ++ [']'])) from by
        rw [dumpJsonL]]
      rw [show pfuel (.arr (x :: xs)) = 1 + pfuel x + pfuelList xs from by rw [pfuel]]
      have h1 := pfuel_le_len x (lvl + 1)
      have h2 := pfuelList_le_len xs (lvl + 1)
      simp only [List.length_cons, List.length_append]
      omega
  | obj kvs =>
    cases kvs with
    | nil =>
      rw [show dumpJsonL lvl (.obj []) = '\x7b' :: '\x7d' :: [] from by rw [dumpJsonL]]
      simp [pfuel]
    | cons kv kvs =>
      rw [show dumpJsonL lvl (.obj (kv :: kvs))
          = '\x7b' :: '\n' :: (indL (lvl + 1) ++ quoteL kv.1 ++ ':' :: ' '
            :: dumpJsonL (lvl + 1) kv.2 ++ dumpObjL (lvl + 1) kvs
            ++ '\n' :: (indL lvl ++ ['\x7d'])) from by
        rw [dumpJsonL]]
      rw [show pfuel (.obj (kv :: kvs)) = 1 + (1 + pfuel kv.2) + pfuelObj kvs from by
        rw [pfuel]]
      have h1 := pfuel_le_len kv.2 (lvl + 1)
      have h2 := pfuelObj_le_len kvs (lvl + 1)
      simp only [List.length_cons, List.length_append]
      omega

theorem pfuelList_le_len (xs : List Json) (lvl : Nat) :
    pfuelList xs ≤ (dumpArrL lvl xs).length + 1 := by
  cases xs with
  | nil =>
    rw [show dumpArrL lvl [] = [] from by rw [dumpArrL]]
    simp [pfuelList]
  | cons x xs =>
    rw [show dumpArrL lvl (x :: xs)
        = ',' :: '\n' :: (indL lvl ++ dumpJsonL lvl x ++ dumpArrL lvl xs) from by
      rw [dumpArrL]]
    rw [show pfuelList (x :: xs) = 1 + pfuel x + pfuelList xs from by rw [pfuelList]]
    have h1 := pfuel_le_len x lvl
    have h2 := pfuelList_le_len xs lvl
    simp only [List.length_cons, List.length_append]
    omega

theorem pfuelObj_le_len (kvs : List (String × Json)) (lvl : Nat) :
    pfuelObj kvs ≤ (dumpObjL lvl kvs).length + 1 := by
  cases kvs with
  | nil =>
    rw [show dumpObjL lvl [] = [] from by rw [dumpObjL]]
    simp [pfuelObj]
  | cons kv kvs =>
    rw [show dumpObjL lvl (kv :: kvs)
        = ',' :: '\n' :: (indL lvl ++ quoteL kv.1 ++ ':' :: ' ' :: dumpJsonL lvl kv.2
          ++ dumpObjL lvl kvs) from by
      rw [dumpObjL]]
    rw [show pfuelObj (kv :: kvs) = 1 + (1 + pfuel kv.2) + pfuelObj kvs from by
      rw [pfuelObj]]
    have h1 := pfuel_le_len kv.2 lvl
    have h2 := pfuelObj_le_len kvs lvl
    simp only [List.length_cons, List.length_append]
    omega

end

theorem json_loads_dumps (v : Json) : json_loads (json_dumps v) = some v := by
  rw [json_loads, json_dumps]
  show (match parseValCore ((dumpJsonL 0 v).length + 1) (skipWs (dumpJsonL 0 v)) with
    | some (w, rest) => if skipWs rest = [] then some w else none
    | none => none) = some v
  have h1 : skipWs (dumpJsonL 0 v) = dumpJsonL 0 v := by
    have := skipWs_dump 0 v []
    simpa using this
  rw [h1]
  have h2 := parse_dump v 0 [] ((dumpJsonL 0 v).length + 1)
    (by have := pfuel_le_len v 0; omega) trivial
  simp only [List.append_nil] at h2
  rw [h2]
  rfl


/-- C8: pretty-printing any JSON value the way line 141 of main.py does
(json.dumps with 2-space indent) and reparsing the printed text with
json.loads yields a value deep-equal to the original response body. -/
theorem C8_dumps_loads_roundtrip (v : Json) : json_loads (json_dumps v) = some v :=
  json_loads_dumps v

theorem dumps_ne {j : Json} {s : String} (h : (json_loads s).isNone = true) :
    json_dumps j ≠ s := by
  intro he
  have hrt := json_loads_dumps j
  rw [he] at hrt
  rw [Option.isNone_iff_eq_none] at h
  rw [h] at hrt
  cases hrt

theorem pyIntStr_data (i : Int) : (pyIntStr i).data = pyIntStrL i := by
  rw [pyIntStr, pyIntStrL]
  by_cases h : i < 0
  · rw [if_pos h, if_pos h]
    rfl
  · rw [if_neg h, if_neg h]

theorem pyIntStrL_shape (i : Int) :
    ∃ c cs2, pyIntStrL i = c :: cs2 ∧ 45 ≤ c.toNat ∧ c.toNat ≤ 57 := by
  by_cases h : i < 0
  · rw [pyIntStrL, if_pos h]
    exact ⟨Char.ofNat 45, _, rfl, by decide, by decide⟩
  · rw [pyIntStrL, if_neg h]
    obtain ⟨c, cs, hs, hd⟩ := natDigits_head i.toNat
    have := isDig_facts hd
    exact ⟨c, cs, hs, by omega, by omega⟩

theorem loads_menu_print_none (i : Int) (t : String) :
    json_loads (pyIntStr i ++ ". " ++ t) = none := by
  rw [json_loads]
  have hd : (pyIntStr i ++ ". " ++ t).data = pyIntStrL i ++ ('.' :: ' ' :: t.data) := by
    rw [String.data_append, String.data_append, pyIntStr_data]
    rw [show (". " : String).data = ['.', ' '] from rfl]
    simp
  rw [hd]
  obtain ⟨c, cs2, hshape, h45, h57⟩ := pyIntStrL_shape i
  have hws : isWs c = false := by
    simp [isWs]
    omega
  rw [hshape, List.cons_append, skipWs_cons_not_ws hws, ← List.cons_append, ← hshape]
  rw [parseValCore_num _ i ('.' :: ' ' :: t.data) (show isDig '.' = false from by decide)]
  show (if skipWs ('.' :: ' ' :: t.data) = [] then some (Json.num i) else none) = none
  rw [skipWs_cons_not_ws (by decide)]
  simp

theorem loads_hdr_leaderboards : (json_loads "Available Leaderboards:").isNone = true := by
  decide

theorem loads_hdr_runners : (json_loads "Available Runners:").isNone = true := by decide

theorem loads_hdr_gpus : (json_loads "Available GPUs:").isNone = true := by decide

theorem loads_fail_msg : (json_loads "Failed to submit solution").isNone = true := by decide

theorem menuEvents_print_loads_none (hdr : String)
    (hh : (json_loads hdr).isNone = true) (items : List String) (s : String)
    (h : Event.print s ∈ menuEvents hdr items) : (json_loads s).isNone = true := by
  simp only [menuEvents, List.mem_cons, List.mem_map, Event.print.injEq] at h
  rcases h with h | ⟨p, hp, h⟩
  · subst h
    exact hh
  · rw [← h]
    exact Option.isNone_iff_eq_none.mpr (loads_menu_print_none _ _)

theorem menuTrace_print_mem (names gpuNames : List String) (vi vr vk : Int)
    (lbName s : String)
    (h : Event.print s ∈ menuTrace names gpuNames vi vr vk lbName) :
    (json_loads s).isNone = true := by
  simp only [menuTrace, List.mem_cons, List.mem_append] at h
  rcases h with h | h | h | h | h | h | h | h | h
  · cases h
  · exact menuEvents_print_loads_none _ loads_hdr_leaderboards _ _ h
  · cases h
  · exact menuEvents_print_loads_none _ loads_hdr_runners _ _ h
  · cases h
  · cases h
  · exact menuEvents_print_loads_none _ loads_hdr_gpus _ _ h
  · cases h
  · cases h

/-- C2: whenever the submission POST returns any status other than 200, the
run ends as a normal process exit with status 0 (the soft-failure
asymmetry), the trace contains the printed failure message, no exception
escapes, and no line of the trace prints a json.dumps rendering of any JSON
value — the flow never reaches the result pretty-print. -/
theorem C2_submit_non200_soft
    (names gpuNames : List String) (fdStr : String)
    (ss : Nat) (sb : Except String Json) (lbIn rIn gIn : List String)
    (vi vr vk : Int) (fp : String) (lbName gpuName : String)
    (hss : ss ≠ 200)
    (hlb : promptAsk (rangeChoices names.length) lbIn = some vi)
    (hr : promptAsk ["1", "2"] rIn = some vr)
    (hname : names[(vi - 1).toNat]? = some lbName)
    (hg : promptAsk (rangeChoices gpuNames.length) gIn = some vk)
    (hgpu : gpuNames[(vk - 1).toNat]? = some gpuName) :
    ∃ tr, run_submit ⟨true, .ok fdStr,
        ⟨200, .ok (Json.arr (names.map (fun nm => Json.obj [("name", Json.str nm)])))⟩,
        ⟨200, .ok (Json.arr (gpuNames.map Json.str))⟩,
        ⟨ss, sb⟩, lbIn, rIn, gIn⟩ fp = .exited tr 0 ∧
      Event.print "Failed to submit solution" ∈ tr ∧
      ∀ j : Json, Event.print (json_dumps j) ∉ tr := by
  rw [run_submit, submit_body_menu names gpuNames (.ok fdStr) ss sb lbIn rIn gIn
    vi vr vk fp lbName gpuName hlb hr hname hg hgpu]
  rw [submit_solution_non200 _ _ _ _ _ _ _ _ hss _ _ _ _]
  simp only [bind_ok, withTrace_withTrace, withTrace_ok, reportResult, emit]
  refine ⟨_, rfl, ?_, ?_⟩
  · simp
  · intro j hmem
    rcases List.mem_append.mp hmem with h | h
    · exact dumps_ne (menuTrace_print_mem _ _ _ _ _ _ _ h) rfl
    · simp only [List.mem_append, List.mem_cons, List.not_mem_nil, or_false,
        Event.print.injEq] at h
      rcases h with (h | h) | h
      · cases h
      · exact dumps_ne loads_fail_msg h
      · exact dumps_ne loads_fail_msg h

/-- Witness for C2 at a concrete environment with submit status 500. -/
theorem C2_submit_non200_soft_witness :
    ∃ tr, run_submit ⟨true, .ok "x",
        ⟨200, .ok (Json.arr (["LB"].map (fun nm => Json.obj [("name", Json.str nm)])))⟩,
        ⟨200, .ok (Json.arr (["G1"].map Json.str))⟩,
        ⟨500, .ok Json.null⟩, ["1"], ["1"], ["1"]⟩ "sol.py" = .exited tr 0 ∧
      Event.print "Failed to submit solution" ∈ tr ∧
      ∀ j : Json, Event.print (json_dumps j) ∉ tr :=
  C2_submit_non200_soft ["LB"] ["G1"] "x" 500 (.ok Json.null) ["1"] ["1"] ["1"]
    1 1 1 "sol.py" "LB" "G1" (by decide)
    (by show promptAsk (rangeChoices 1) ["1"] = some 1
        rw [rangeChoices_one]
        decide)
    (by decide)
    (by decide)
    (by show promptAsk (rangeChoices 1) ["1"] = some 1
        rw [rangeChoices_one]
        decide)
    (by decide)

end Popcorn
